/-
Verification of the SegCraft repository (unified-content-source parsing,
LLM-output extraction/validation, format-limit enforcement).

The definitions below are a shallow embedding of the Python sources:
  - segcraft/content_source.py  (section/record parsing, char-count and
    format-limit enforcement over untyped JSON payloads)
  - segcraft/schemas.py         (pydantic response schema and validators)
  - segcraft/llm_client.py      (JSON extraction from model text and the
    generation orchestrator)

Modelling conventions:
  - Python `str` is Lean `String`; `len` is `String.length` (code points).
  - Python `int` is Lean `Int` (unbounded).
  - JSON documents (`dict`/`list` payloads produced by `json.loads`) are the
    inductive `Json` below; Python dicts are association lists with unique
    keys, in insertion order; `d[k] = v` preserves the position of an
    existing key and appends a new one at the end, which `objSet` mirrors.
  - `str.strip()` / `rstrip()` are modelled on ASCII whitespace (the sources
    only ever strip ASCII text); `int(...)` is modelled for an optional
    sign followed by ASCII digits, failing otherwise (Python's underscore
    and non-ASCII digit forms are never exercised by the repository data).
  - `json.loads` is modelled by `jsonLoads`: a strict RFC-8259 parser
    restricted to integer numerals (the repository's documents and every
    input considered here use integers only; a non-integer numeral makes
    the model parser fail where Python would succeed, which is harmless for
    the properties proved below because `jsonLoads` successes are only ever
    consumed as hypotheses or on concrete integer-valued documents).
  - Points where the Python code would raise a dynamic `TypeError` /
    `AttributeError` (e.g. a non-dict where a dict is expected inside an
    already-validated payload) are noted at the definition; the model
    leaves such values unchanged.
-/

import Mathlib

namespace SegCraft

/-! ## Python string primitives -/

/-- ASCII whitespace, the subset of Python's `str.strip` class exercised here. -/
def pyIsSpace (c : Char) : Bool :=
  c == ' ' || c == '\t' || c == '\n' || c == '\r' || c == '\x0b' || c == '\x0c'

/-- `str.strip()` (both ends). -/
def pyStrip (s : String) : String :=
  String.mk (((s.data.dropWhile pyIsSpace).reverse.dropWhile pyIsSpace).reverse)

/-- `str.rstrip()` (right end only). -/
def pyRstrip (s : String) : String :=
  String.mk ((s.data.reverse.dropWhile pyIsSpace).reverse)

/-- `str.strip(ch)` for a single-character class (used for backtick fences). -/
def pyStripChar (ch : Char) (s : String) : String :=
  String.mk (((s.data.dropWhile (· == ch)).reverse.dropWhile (· == ch)).reverse)

/-- Does `needle` occur at the head of `hay`? (model of `str.startswith`). -/
def listStartsWith : List Char → List Char → Bool
  | [], _ => true
  | _ :: _, [] => false
  | a :: as, b :: bs => a == b && listStartsWith as bs

/-- `str.startswith`. -/
def pyStartsWith (s pre : String) : Bool :=
  listStartsWith pre.data s.data

/-- Does `needle` occur anywhere inside `hay`? -/
def listHasInfix (needle : List Char) : List Char → Bool
  | [] => listStartsWith needle []
  | c :: t => listStartsWith needle (c :: t) || listHasInfix needle t

/-- Substring test (`needle in hay` in Python). -/
def strContains (hay needle : String) : Bool :=
  listHasInfix needle.data hay.data

/-- `str.replace(old, new, 1)`: replace the first occurrence only. -/
def replaceFirstAux (old new : List Char) : List Char → List Char
  | [] => []
  | c :: t =>
    if listStartsWith old (c :: t) then new ++ (c :: t).drop old.length
    else c :: replaceFirstAux old new t

/-- `str.replace(old, new, 1)`. -/
def pyReplaceOnce (s old new : String) : String :=
  String.mk (replaceFirstAux old.data new.data s.data)

/-- Python slice `s[:k]` with Python's negative-index semantics. -/
def pySliceTo (s : String) (k : Int) : String :=
  let stop : Int := if k < 0 then (s.length : Int) + k else k
  String.mk (s.data.take stop.toNat)

/-- Split a character list at every occurrence of `c` (the separator is
dropped; `n` separators yield `n+1` pieces, like Python `str.split(c)`). -/
def splitOnChar (c : Char) : List Char → List (List Char)
  | [] => [[]]
  | x :: t =>
    let r := splitOnChar c t
    if x = c then [] :: r
    else
      match r with
      | [] => [[x]]
      | h :: t2 => (x :: h) :: t2

/-- `sep.join(parts)`. -/
def joinSep (sep : String) : List String → String
  | [] => ""
  | [x] => x
  | x :: t => x ++ sep ++ joinSep sep t

/-- `str.splitlines()`, modelled for `\n` separators (the only ones in the
repository's data).  Python returns `[]` on the empty string. -/
def splitLines (s : String) : List String :=
  if s = "" then [] else (splitOnChar '\n' s.data).map String.mk

/-- `"\n".join(lines)`. -/
def joinLines (lines : List String) : String :=
  joinSep "\n" lines

/-- Value of an ASCII digit. -/
def digitVal (c : Char) : Nat := c.toNat - 48

/-- Digits-only numeral reading used by `pyIntOfString`. -/
def natOfDigits (l : List Char) : Option Nat :=
  if l ≠ [] ∧ l.all Char.isDigit then
    some (l.foldl (fun acc c => acc * 10 + digitVal c) 0)
  else none

/-- Model of Python `int(str)`: optional sign then ASCII digits, after
stripping surrounding whitespace; anything else raises `ValueError`. -/
def pyIntOfString (s : String) : Option Int :=
  match (pyStrip s).data with
  | '+' :: ds => (natOfDigits ds).map Int.ofNat
  | '-' :: ds => (natOfDigits ds).map (fun n => -(n : Int))
  | ds => (natOfDigits ds).map Int.ofNat

/-! ## JSON documents -/

/-- A parsed JSON document (`json.loads` output).  Numbers are restricted to
integers as explained in the header. -/
inductive Json where
  | null : Json
  | bool : Bool → Json
  | num : Int → Json
  | str : String → Json
  | arr : List Json → Json
  | obj : List (String × Json) → Json

/-- First-match association lookup (`d.get(k)` on a Python dict; keys are
unique in dicts produced by `json.loads`). -/
def objFind (o : List (String × Json)) (k : String) : Option Json :=
  match o with
  | [] => none
  | (k2, v) :: rest => if k2 = k then some v else objFind rest k

/-- Python dict assignment `d[k] = v`: replace in place, else append. -/
def objSet (o : List (String × Json)) (k : String) (v : Json) :
    List (String × Json) :=
  match o with
  | [] => [(k, v)]
  | (k2, w) :: rest => if k2 = k then (k2, v) :: rest else (k2, w) :: objSet rest k v

/-- Python `d.setdefault(k, v)` (result dict only). -/
def objSetdefault (o : List (String × Json)) (k : String) (v : Json) :
    List (String × Json) :=
  match objFind o k with
  | some _ => o
  | none => o ++ [(k, v)]

/-! ### Model of `json.loads` -/

/-- JSON structural whitespace. -/
def jsonWs (c : Char) : Bool :=
  c == ' ' || c == '\t' || c == '\n' || c == '\r'

/-- Hex digit value for `\uXXXX` escapes. -/
def hexVal (c : Char) : Option Nat :=
  if '0' ≤ c ∧ c ≤ '9' then some (c.toNat - 48)
  else if 'a' ≤ c ∧ c ≤ 'f' then some (c.toNat - 87)
  else if 'A' ≤ c ∧ c ≤ 'F' then some (c.toNat - 55)
  else none

/-- Body of a JSON string after the opening quote: returns the decoded
content and the remainder after the closing quote. -/
def parseStrBody : List Char → Option (List Char × List Char)
  | [] => none
  | '"' :: rest => some ([], rest)
  | '\\' :: e :: rest =>
    if e = 'u' then
      match rest with
      | h1 :: h2 :: h3 :: h4 :: rest2 =>
        match hexVal h1, hexVal h2, hexVal h3, hexVal h4 with
        | some a, some b, some c, some d =>
          (parseStrBody rest2).map
            (fun p => (Char.ofNat (((a * 16 + b) * 16 + c) * 16 + d) :: p.1, p.2))
        | _, _, _, _ => none
      | _ => none
    else
      match
        (if e = '"' then some '"'
         else if e = '\\' then some '\\'
         else if e = '/' then some '/'
         else if e = 'b' then some '\x08'
         else if e = 'f' then some '\x0c'
         else if e = 'n' then some '\n'
         else if e = 'r' then some '\r'
         else if e = 't' then some '\t'
         else none) with
      | some d => (parseStrBody rest).map (fun p => (d :: p.1, p.2))
      | none => none
  | c :: rest =>
    if c.toNat < 32 then none
    else (parseStrBody rest).map (fun p => (c :: p.1, p.2))

/-- Integer numeral lexeme: optional `-`, digits, no leading zero, and no
fraction/exponent tail (non-integer numerals are outside the model). -/
def parseIntLex (l : List Char) : Option (Int × List Char) :=
  let core : List Char → Option (Nat × List Char) := fun ds =>
    match ds with
    | [] => none
    | c :: _ =>
      if ¬ c.isDigit then none
      else
        let digits := ds.takeWhile Char.isDigit
        let rest := ds.dropWhile Char.isDigit
        if c = '0' ∧ digits.length ≠ 1 then none
        else
          match rest with
          | '.' :: _ => none
          | 'e' :: _ => none
          | 'E' :: _ => none
          | _ => some (digits.foldl (fun acc d => acc * 10 + digitVal d) 0, rest)
  match l with
  | '-' :: ds => (core ds).map (fun p => (-(p.1 : Int), p.2))
  | ds => (core ds).map (fun p => ((p.1 : Int), p.2))

mutual

/-- One JSON value (leading whitespace allowed), fuel-indexed. -/
def parseVal : Nat → List Char → Option (Json × List Char)
  | 0, _ => none
  | Nat.succ fuel, l =>
    match List.dropWhile jsonWs l with
    | [] => none
    | c :: rest =>
      if c = '"' then (parseStrBody rest).map (fun p => (Json.str (String.mk p.1), p.2))
      else if c = '{' then parseObjBody fuel rest
      else if c = '[' then parseArrBody fuel rest
      else if c = 'n' then
        match rest with
        | 'u' :: 'l' :: 'l' :: r => some (Json.null, r)
        | _ => none
      else if c = 't' then
        match rest with
        | 'r' :: 'u' :: 'e' :: r => some (Json.bool true, r)
        | _ => none
      else if c = 'f' then
        match rest with
        | 'a' :: 'l' :: 's' :: 'e' :: r => some (Json.bool false, r)
        | _ => none
      else (parseIntLex (c :: rest)).map (fun p => (Json.num p.1, p.2))

/-- Object body after `{`. -/
def parseObjBody : Nat → List Char → Option (Json × List Char)
  | 0, _ => none
  | Nat.succ fuel, l =>
    match List.dropWhile jsonWs l with
    | '}' :: r => some (Json.obj [], r)
    | l2 => parseMembers fuel l2 []

/-- Members of an object; duplicate keys follow Python (`dict`): the later
value wins, the earlier position is kept. -/
def parseMembers : Nat → List Char → List (String × Json) →
    Option (Json × List Char)
  | 0, _, _ => none
  | Nat.succ fuel, l, acc =>
    match List.dropWhile jsonWs l with
    | '"' :: r =>
      match parseStrBody r with
      | none => none
      | some (key, r2) =>
        match List.dropWhile jsonWs r2 with
        | ':' :: r3 =>
          match parseVal fuel r3 with
          | none => none
          | some (v, r4) =>
            let acc2 := objSet acc (String.mk key) v
            match List.dropWhile jsonWs r4 with
            | ',' :: r5 => parseMembers fuel r5 acc2
            | '}' :: r5 => some (Json.obj acc2, r5)
            | _ => none
        | _ => none
    | _ => none

/-- Array body after `[`. -/
def parseArrBody : Nat → List Char → Option (Json × List Char)
  | 0, _ => none
  | Nat.succ fuel, l =>
    match List.dropWhile jsonWs l with
    | ']' :: r => some (Json.arr [], r)
    | l2 => parseElems fuel l2 []

/-- Elements of an array. -/
def parseElems : Nat → List Char → List Json → Option (Json × List Char)
  | 0, _, _ => none
  | Nat.succ fuel, l, acc =>
    match parseVal fuel l with
    | none => none
    | some (v, r) =>
      match List.dropWhile jsonWs r with
      | ',' :: r2 => parseElems fuel r2 (acc ++ [v])
      | ']' :: r2 => some (Json.arr (acc ++ [v]), r2)
      | _ => none

end

/-- Model of `json.loads`: exactly one document, optionally surrounded by
whitespace.  The fuel is generous: every nested call consumes input. -/
def jsonLoads (s : String) : Option Json :=
  match parseVal (4 * s.length + 4) s.data with
  | some (v, rest) => if (List.dropWhile jsonWs rest).isEmpty then some v else none
  | none => none

/-! ## content_source.py: key=value blocks and record parsing -/

/-- String-valued key-value mapping (Python dict of strings): same
replace-or-append assignment as `objSet`. -/
def kvSet (o : List (String × String)) (k v : String) : List (String × String) :=
  match o with
  | [] => [(k, v)]
  | (k2, w) :: rest => if k2 = k then (k2, v) :: rest else (k2, w) :: kvSet rest k v

/-- `d.get(k)` on a string dict. -/
def kvFind (o : List (String × String)) (k : String) : Option String :=
  match o with
  | [] => none
  | (k2, v) :: rest => if k2 = k then some v else kvFind rest k

/-- `d.get(k, dflt)` on a string dict. -/
def kvFindD (o : List (String × String)) (k dflt : String) : String :=
  (kvFind o k).getD dflt

/-- One line of `parse_key_values`: skip blank/comment/`=`-less lines,
split once on the first `=`, strip both sides.  `split("=", 1)` is modelled
by `splitOn` re-joined on the tail. -/
def kvLineStep (acc : List (String × String)) (line : String) :
    List (String × String) :=
  let stripped := pyStrip line
  if stripped = "" then acc
  else if pyStartsWith stripped "#" then acc
  else if strContains stripped "=" = false then acc
  else
    match (splitOnChar '=' stripped.data).map String.mk with
    | [] => acc
    | key :: rest => kvSet acc (pyStrip key) (pyStrip (joinSep "=" rest))

/-- `parse_key_values` from content_source.py. -/
def parse_key_values (block : String) : List (String × String) :=
  (splitLines block).foldl kvLineStep []

/-- `split_semicolon_list` from content_source.py (`None`/empty falsy input
gives `[]`; items are stripped and empties dropped). -/
def split_semicolon_list (raw_value : Option String) : List String :=
  match raw_value with
  | none => []
  | some s =>
    if s = "" then []
    else ((splitOnChar ';' s.data).map String.mk).filterMap
      (fun item => let t := pyStrip item; if t = "" then none else some t)

/-- Segment Record (`parse_segments` output row). -/
structure SegmentRec where
  segment_id : String
  name : String
  who : String
  job_to_be_done : String
  pains : List String
  triggers : List String
  taboos : List String
  tone_hint : String
  cta_style : String
  example_offer_adaptations : List String
deriving Repr, DecidableEq

/-- Row built from a buffered `SEGMENT … END` block (the dict literal at
content_source.py:86-101). -/
def segmentFromKV (kv : List (String × String)) : SegmentRec :=
  { segment_id := kvFindD kv "id" ""
    name := kvFindD kv "name" ""
    who := kvFindD kv "who" ""
    job_to_be_done := kvFindD kv "job" (kvFindD kv "job_to_be_done" "")
    pains := split_semicolon_list (kvFind kv "pains")
    triggers := split_semicolon_list (kvFind kv "triggers")
    taboos := split_semicolon_list (kvFind kv "taboos")
    tone_hint := kvFindD kv "tone_hint" ""
    cta_style := kvFindD kv "cta_style" ""
    example_offer_adaptations := split_semicolon_list (kvFind kv "example_offer_adaptations") }

/-- Loop state of `parse_segments`. -/
structure SegState where
  segments : List SegmentRec
  buffer : List String
  in_segment : Bool
deriving Repr, DecidableEq

/-- One iteration of the `parse_segments` line loop. -/
def segStep (st : SegState) (line : String) : SegState :=
  let stripped := pyStrip line
  if stripped = "" then st
  else if pyStartsWith stripped "#" then st
  else if stripped = "SEGMENT" then { st with buffer := [], in_segment := true }
  else if stripped = "END" then
    if st.in_segment then
      { segments := st.segments ++ [segmentFromKV (parse_key_values (joinLines st.buffer))]
        buffer := [], in_segment := false }
    else { st with buffer := [], in_segment := false }
  else if st.in_segment then { st with buffer := st.buffer ++ [stripped] }
  else st

/-- Initial state of the `parse_segments` loop. -/
def segInit : SegState := { segments := [], buffer := [], in_segment := false }

/-- `parse_segments` on a list of lines.  Note the Python function returns
`segments` directly after the loop: a still-open trailing buffer is
discarded, not flushed. -/
def parse_segments_lines (lines : List String) : List SegmentRec :=
  (lines.foldl segStep segInit).segments

/-- `parse_segments` from content_source.py. -/
def parse_segments (section_text : String) : List SegmentRec :=
  parse_segments_lines (splitLines section_text)

/-- Headline/body maxima of a Format Record (Python ints). -/
structure FmtLimits where
  headline_max : Int
  body_max : Int
deriving Repr, DecidableEq

/-- Format Record (`parse_formats` output row). -/
structure FormatRec where
  format_id : String
  name : String
  limits : FmtLimits
  output_template : String
  notes : String
deriving Repr, DecidableEq

/-- Message of the `ValueError` raised by Python `int()` on a bad literal. -/
def intValueErrorMsg (v : String) : String :=
  "invalid literal for int() with base 10: \x27" ++ v ++ "\x27"

/-- Row built from a buffered `FORMAT … END` block (content_source.py:126-143).
`int(kv.get("headline_max", "0"))` raises `ValueError` on a non-numeric
value, so the builder is fallible. -/
def formatFromKV (kv : List (String × String)) : Except String FormatRec :=
  match pyIntOfString (kvFindD kv "headline_max" "0") with
  | none => .error (intValueErrorMsg (kvFindD kv "headline_max" "0"))
  | some headline_max =>
    match pyIntOfString (kvFindD kv "body_max" "0") with
    | none => .error (intValueErrorMsg (kvFindD kv "body_max" "0"))
    | some body_max =>
      .ok
        { format_id := kvFindD kv "id" ""
          name := kvFindD kv "name" ""
          limits := { headline_max := headline_max, body_max := body_max }
          output_template :=
            "Сделай headline до " ++ toString headline_max ++
              " символов и body до " ++ toString body_max ++ " символов."
          notes := kvFindD kv "notes" "" }

/-- Loop state of `parse_formats`. -/
structure FmtState where
  formats : List FormatRec
  buffer : List String
  in_format : Bool
deriving Repr, DecidableEq

/-- One iteration of the `parse_formats` line loop; an uncaught `ValueError`
from `int()` aborts the whole parse. -/
def fmtStep (st : FmtState) (line : String) : Except String FmtState :=
  let stripped := pyStrip line
  if stripped = "" then .ok st
  else if pyStartsWith stripped "#" then .ok st
  else if stripped = "FORMAT" then .ok { st with buffer := [], in_format := true }
  else if stripped = "END" then
    if st.in_format then
      match formatFromKV (parse_key_values (joinLines st.buffer)) with
      | .error e => .error e
      | .ok fmt =>
        .ok { formats := st.formats ++ [fmt], buffer := [], in_format := false }
    else .ok { st with buffer := [], in_format := false }
  else if st.in_format then .ok { st with buffer := st.buffer ++ [stripped] }
  else .ok st

/-- `parse_formats` on a list of lines. -/
def parse_formats_lines (lines : List String) : Except String (List FormatRec) :=
  (lines.foldl
      (fun (est : Except String FmtState) line => est.bind (fun st => fmtStep st line))
      (.ok { formats := [], buffer := [], in_format := false })).map
    (fun st => st.formats)

/-- `parse_formats` from content_source.py. -/
def parse_formats (section_text : String) : Except String (List FormatRec) :=
  parse_formats_lines (splitLines section_text)

/-! ## content_source.py: char-count and format-limit enforcement

These run on untyped JSON payloads (`dict`s from `json.loads`).  Where the
Python code would raise on an ill-typed payload (a non-dict segment/copy, a
non-string headline, a non-list `risk_flags`) the model leaves the value
unchanged; every payload the repository feeds these functions is well-typed. -/

/-- `copy.get(k, "")` restricted to string values (a non-string value would
make Python's `len`/slicing semantics diverge or raise; unmodelled). -/
def jsonGetStrD (o : List (String × Json)) (k : String) : String :=
  match objFind o k with
  | some (Json.str s) => s
  | _ => ""

/-- The `char_count` object written by `enforce_char_counts`. -/
def ccNum (h b : Int) : Json :=
  Json.obj [("headline", Json.num h), ("body", Json.num b)]

/-- Per-copy body of `enforce_char_counts`: recompute `char_count` from the
current headline/body, then `setdefault("risk_flags", [])`. -/
def enforceCopy (copy : Json) : Json :=
  match copy with
  | Json.obj o =>
    let headline := jsonGetStrD o "headline"
    let body := jsonGetStrD o "body"
    Json.obj
      (objSetdefault
        (objSet o "char_count" (ccNum headline.length body.length))
        "risk_flags" (Json.arr []))
  | c => c

/-- Map a function over every copy of every segment of a payload, leaving
everything else (and ill-shaped parts) unchanged.  This is the traversal
shared by `enforce_char_counts` and `ensure_format_limits`:
`for segment in payload.get("segments", []): for copy in segment.get("copies", [])`. -/
def mapSegCopies (f : Json → Json) (seg : Json) : Json :=
  match seg with
  | Json.obj s =>
    match objFind s "copies" with
    | some (Json.arr cs) => Json.obj (objSet s "copies" (Json.arr (cs.map f)))
    | _ => seg
  | _ => seg

/-- See `mapSegCopies`. -/
def mapCopies (payload : Json) (f : Json → Json) : Json :=
  match payload with
  | Json.obj o =>
    match objFind o "segments" with
    | some (Json.arr segs) =>
      Json.obj (objSet o "segments" (Json.arr (segs.map (mapSegCopies f))))
    | _ => payload
  | _ => payload

/-- `enforce_char_counts` from content_source.py. -/
def enforce_char_counts (payload : Json) : Json :=
  mapCopies payload enforceCopy

/-- The risk flag injected by `ensure_format_limits` on truncation. -/
def overflowFlag : Json :=
  Json.obj
    [("type", Json.str "format_overflow"),
     ("note", Json.str "Текст был автоматически укорочен под лимит формата."),
     ("suggest_fix",
      Json.str "Сократить формулировку вручную и сохранить ключевую мысль без потери смысла.")]

/-- `risk_flags = copy.setdefault("risk_flags", []); risk_flags.append(flag)`.
A present non-list value would make Python raise on `append`; unmodelled. -/
def appendRisk (o : List (String × Json)) : List (String × Json) :=
  match objFind o "risk_flags" with
  | some (Json.arr fs) => objSet o "risk_flags" (Json.arr (fs ++ [overflowFlag]))
  | some _ => o
  | none => o ++ [("risk_flags", Json.arr [overflowFlag])]

/-- Per-copy truncation pass of `ensure_format_limits` (content_source.py:
256-277): truncate overflowing headline/body with `rstrip`, and append one
`format_overflow` flag if either field was cut. -/
def limitCopy (lim : FmtLimits) (copy : Json) : Json :=
  match copy with
  | Json.obj o =>
    let headline := jsonGetStrD o "headline"
    let body := jsonGetStrD o "body"
    let oH :=
      if lim.headline_max < (headline.length : Int) then
        objSet o "headline" (Json.str (pyRstrip (pySliceTo headline lim.headline_max)))
      else o
    let oB :=
      if lim.body_max < (body.length : Int) then
        objSet oH "body" (Json.str (pyRstrip (pySliceTo body lim.body_max)))
      else oH
    if lim.headline_max < (headline.length : Int) ∨ lim.body_max < (body.length : Int) then
      Json.obj (appendRisk oB)
    else Json.obj oB
  | c => c

/-- `payload.get("input_echo", {}).get("format_id", "")`. -/
def payloadFormatId (payload : Json) : String :=
  match payload with
  | Json.obj o =>
    match objFind o "input_echo" with
    | some (Json.obj e) =>
      match objFind e "format_id" with
      | some (Json.str s) => s
      | _ => ""
    | _ => ""
  | _ => ""

/-- First-match lookup in the format-limits mapping
(`format_limits.get(format_id)`). -/
def limitsFind (format_limits : List (String × FmtLimits)) (k : String) :
    Option FmtLimits :=
  match format_limits with
  | [] => none
  | (k2, v) :: rest => if k2 = k then some v else limitsFind rest k

/-- `ensure_format_limits` from content_source.py.  The mapping's values
always carry both maxima (see sync_from_text.py:118-124), so the Python
`if not limits` guard only fires on a missing id, which is the `none` case. -/
def ensure_format_limits (payload : Json)
    (format_limits : List (String × FmtLimits)) : Json :=
  match limitsFind format_limits (payloadFormatId payload) with
  | none => payload
  | some lim => enforce_char_counts (mapCopies payload (limitCopy lim))

/-! ## schemas.py: the typed response tree and its validators

Pydantic's `Model.model_validate(payload)` is modelled per model as a
function `Json → Except String Model`.  The model checks fields in
declaration order and stops at the first violation; pydantic aggregates
all errors into one `ValidationError`, but the only message any claim
depends on verbatim is the one raised by `validate_lengths`
(schemas.py:92-95), which is reproduced exactly.  In pydantic's default
(lax, extra="ignore") mode a `str` field accepts only strings and an `int`
field accepts integers (the coercions from numeric strings/integral floats
are never exercised by the repository and are unmodelled). -/

/-- `CharCount` (headline/body counters, each `ge=0`). -/
structure CharCount where
  headline : Int
  body : Int
deriving Repr, DecidableEq

/-- `RiskFlag`. -/
structure RiskFlag where
  type : String
  note : String
  suggest_fix : String
deriving Repr, DecidableEq

/-- `CopyVariant` (after validation, `char_count` is already synced). -/
structure CopyVariant where
  headline : String
  body : String
  cta : String
  rationale : String
  char_count : CharCount
  risk_flags : List RiskFlag
deriving Repr, DecidableEq

/-- `SegmentOutput`. -/
structure SegmentOutput where
  segment_id : String
  segment_name : String
  core_insight : String
  trigger : String
  angle : String
  copies : List CopyVariant
  differences_note : String
deriving Repr, DecidableEq

/-- `QuestionItem` (`priority` restricted to P0/P1/P2 by the validator). -/
structure QuestionItem where
  q : String
  why : String
  priority : String
deriving Repr, DecidableEq

/-- `GlobalRiskItem`. -/
structure GlobalRiskItem where
  risk : String
  impact : String
  mitigation : String
deriving Repr, DecidableEq

/-- `ExportHints`. -/
structure ExportHints where
  how_to_use : List String
  ab_test_suggestions : List String
deriving Repr, DecidableEq

/-- `ExecSummary`. -/
structure ExecSummary where
  for_marketer : String
  for_non_tech_manager : String
deriving Repr, DecidableEq

/-- `InputEcho` (`tone` a four-value enum, `variants_per_segment` in [1,3]). -/
structure InputEcho where
  base_text : String
  tone : String
  format_id : String
  variants_per_segment : Int
  constraints : List String
  assumptions : List String
deriving Repr, DecidableEq

/-- `SegCraftResponse` (the validated root object). -/
structure SegCraftResponse where
  version : String
  input_echo : InputEcho
  questions : List QuestionItem
  segments : List SegmentOutput
  global_risks : List GlobalRiskItem
  export_hints : ExportHints
  exec_summary : ExecSummary
deriving Repr, DecidableEq

/-- A required string field. -/
def vStrField (o : List (String × Json)) (k : String) : Except String String :=
  match objFind o k with
  | some (Json.str s) => .ok s
  | some _ => .error (k ++ ": Input should be a valid string")
  | none => .error (k ++ ": Field required")

/-- A required integer field. -/
def vIntField (o : List (String × Json)) (k : String) : Except String Int :=
  match objFind o k with
  | some (Json.num n) => .ok n
  | some _ => .error (k ++ ": Input should be a valid integer")
  | none => .error (k ++ ": Field required")

/-- Validate each element of a list, failing on the first bad one. -/
def mapExcept (f : Json → Except String α) : List Json → Except String (List α)
  | [] => .ok []
  | x :: xs => do
    let y ← f x
    let ys ← mapExcept f xs
    .ok (y :: ys)

/-- A required list field whose elements are validated by `f`. -/
def vListField (o : List (String × Json)) (k : String)
    (f : Json → Except String α) : Except String (List α) :=
  match objFind o k with
  | some (Json.arr xs) => mapExcept f xs
  | some _ => .error (k ++ ": Input should be a valid list")
  | none => .error (k ++ ": Field required")

/-- A list field with `default_factory=list`. -/
def vListFieldD (o : List (String × Json)) (k : String)
    (f : Json → Except String α) : Except String (List α) :=
  match objFind o k with
  | some (Json.arr xs) => mapExcept f xs
  | some _ => .error (k ++ ": Input should be a valid list")
  | none => .ok []

/-- Plain string element (for `list[str]` fields). -/
def vStrElem : Json → Except String String
  | Json.str s => .ok s
  | _ => .error "Input should be a valid string"

/-- `CharCount.model_validate`: both counters required and `ge=0`. -/
def CharCount.modelValidate (j : Json) : Except String CharCount :=
  match j with
  | Json.obj o => do
    let h ← vIntField o "headline"
    let b ← vIntField o "body"
    if h < 0 then .error "headline: Input should be greater than or equal to 0"
    else if b < 0 then .error "body: Input should be greater than or equal to 0"
    else .ok { headline := h, body := b }
  | _ => .error "char_count: Input should be a valid dictionary"

/-- `RiskFlag.model_validate`. -/
def RiskFlag.modelValidate (j : Json) : Except String RiskFlag :=
  match j with
  | Json.obj o => do
    let t ← vStrField o "type"
    let n ← vStrField o "note"
    let s ← vStrField o "suggest_fix"
    .ok { type := t, note := n, suggest_fix := s }
  | _ => .error "risk_flags: Input should be a valid dictionary"

/-- The required `char_count` field of a copy variant. -/
def vCharCountField (o : List (String × Json)) : Except String CharCount :=
  match objFind o "char_count" with
  | some cc => CharCount.modelValidate cc
  | none => .error "char_count: Field required"

/-- `CopyVariant.model_validate`: the structural fields (with `char_count`
required and validated), then the `sync_char_count` after-validator, which
unconditionally replaces `char_count` by the literal lengths of the current
headline/body (schemas.py:30-34). -/
def CopyVariant.modelValidate (j : Json) : Except String CopyVariant :=
  match j with
  | Json.obj o => do
    let headline ← vStrField o "headline"
    let body ← vStrField o "body"
    let cta ← vStrField o "cta"
    let rationale ← vStrField o "rationale"
    let _ ← vCharCountField o
    let risk_flags ← vListFieldD o "risk_flags" RiskFlag.modelValidate
    .ok
      { headline := headline, body := body, cta := cta, rationale := rationale
        char_count := { headline := (headline.length : Int), body := (body.length : Int) }
        risk_flags := risk_flags }
  | _ => .error "CopyVariant: Input should be a valid dictionary"

/-- `SegmentOutput.model_validate`. -/
def SegmentOutput.modelValidate (j : Json) : Except String SegmentOutput :=
  match j with
  | Json.obj o => do
    let sid ← vStrField o "segment_id"
    let sname ← vStrField o "segment_name"
    let ci ← vStrField o "core_insight"
    let tr ← vStrField o "trigger"
    let an ← vStrField o "angle"
    let cps ← vListField o "copies" CopyVariant.modelValidate
    let dn ← vStrField o "differences_note"
    .ok
      { segment_id := sid, segment_name := sname, core_insight := ci
        trigger := tr, angle := an, copies := cps, differences_note := dn }
  | _ => .error "SegmentOutput: Input should be a valid dictionary"

/-- `QuestionItem.model_validate` (`priority` in P0/P1/P2). -/
def QuestionItem.modelValidate (j : Json) : Except String QuestionItem :=
  match j with
  | Json.obj o => do
    let q ← vStrField o "q"
    let w ← vStrField o "why"
    let p ← vStrField o "priority"
    if p = "P0" ∨ p = "P1" ∨ p = "P2" then .ok { q := q, why := w, priority := p }
    else .error "priority: Input should be P0, P1 or P2"
  | _ => .error "QuestionItem: Input should be a valid dictionary"

/-- `GlobalRiskItem.model_validate`. -/
def GlobalRiskItem.modelValidate (j : Json) : Except String GlobalRiskItem :=
  match j with
  | Json.obj o => do
    let r ← vStrField o "risk"
    let i ← vStrField o "impact"
    let m ← vStrField o "mitigation"
    .ok { risk := r, impact := i, mitigation := m }
  | _ => .error "GlobalRiskItem: Input should be a valid dictionary"

/-- `ExportHints.model_validate`. -/
def ExportHints.modelValidate (j : Json) : Except String ExportHints :=
  match j with
  | Json.obj o => do
    let h ← vListField o "how_to_use" vStrElem
    let a ← vListField o "ab_test_suggestions" vStrElem
    .ok { how_to_use := h, ab_test_suggestions := a }
  | _ => .error "export_hints: Input should be a valid dictionary"

/-- `ExecSummary.model_validate`. -/
def ExecSummary.modelValidate (j : Json) : Except String ExecSummary :=
  match j with
  | Json.obj o => do
    let m ← vStrField o "for_marketer"
    let n ← vStrField o "for_non_tech_manager"
    .ok { for_marketer := m, for_non_tech_manager := n }
  | _ => .error "exec_summary: Input should be a valid dictionary"

/-- The `^\d+\.\d+$` version pattern: exactly one dot, non-empty ASCII digit
runs on both sides. -/
def versionOk (s : String) : Bool :=
  match splitOnChar '.' s.data with
  | [a, b] => a ≠ [] && b ≠ [] && a.all Char.isDigit && b.all Char.isDigit
  | _ => false

/-- `InputEcho.model_validate` (`tone` enum, `variants_per_segment` in [1,3],
`constraints`/`assumptions` defaulting to `[]`). -/
def InputEcho.modelValidate (j : Json) : Except String InputEcho :=
  match j with
  | Json.obj o => do
    let bt ← vStrField o "base_text"
    let tone ← vStrField o "tone"
    let _ ←
      (if tone = "friendly" ∨ tone = "neutral" ∨ tone = "formal" ∨ tone = "bold" then
        Except.ok ()
      else .error "tone: Input should be friendly, neutral, formal or bold")
    let fid ← vStrField o "format_id"
    let v ← vIntField o "variants_per_segment"
    let _ ←
      (if v < 1 then
        Except.error "variants_per_segment: Input should be greater than or equal to 1"
      else if 3 < v then
        .error "variants_per_segment: Input should be less than or equal to 3"
      else .ok ())
    let cs ← vListFieldD o "constraints" vStrElem
    let asm ← vListFieldD o "assumptions" vStrElem
    .ok
      { base_text := bt, tone := tone, format_id := fid, variants_per_segment := v
        constraints := cs, assumptions := asm }
  | _ => .error "input_echo: Input should be a valid dictionary"

/-- The message of the `ValueError` raised by `validate_lengths`
(schemas.py:92-95): it names the expected count and the offending segment
identifier. -/
def mismatchMsg (expected : Int) (segment_id : String) : String :=
  "copies.length должна совпадать с variants_per_segment (" ++ toString expected ++
    ") для segment_id=" ++ segment_id

/-- The loop of `validate_lengths`: fail on the first segment whose copy
count differs from the expected variant count. -/
def validate_lengths (expected : Int) : List SegmentOutput → Except String Unit
  | [] => .ok ()
  | s :: rest =>
    if (s.copies.length : Int) ≠ expected then .error (mismatchMsg expected s.segment_id)
    else validate_lengths expected rest

/-- Structural part of `SegCraftResponse.model_validate` (all fields, in
declaration order), before the `validate_lengths` after-validator. -/
def SegCraftResponse.structValidate (j : Json) : Except String SegCraftResponse :=
  match j with
  | Json.obj o => do
    let ver ← vStrField o "version"
    let _ ←
      (if versionOk ver then Except.ok ()
       else .error "version: String should match pattern")
    let echo ←
      (match objFind o "input_echo" with
       | some e => InputEcho.modelValidate e
       | none => .error "input_echo: Field required")
    let qs ← vListFieldD o "questions" QuestionItem.modelValidate
    let segs ← vListField o "segments" SegmentOutput.modelValidate
    let grs ← vListFieldD o "global_risks" GlobalRiskItem.modelValidate
    let eh ←
      (match objFind o "export_hints" with
       | some e => ExportHints.modelValidate e
       | none => .error "export_hints: Field required")
    let es ←
      (match objFind o "exec_summary" with
       | some e => ExecSummary.modelValidate e
       | none => .error "exec_summary: Field required")
    .ok
      { version := ver, input_echo := echo, questions := qs, segments := segs
        global_risks := grs, export_hints := eh, exec_summary := es }
  | _ => .error "SegCraftResponse: Input should be a valid dictionary"

/-- `SegCraftResponse.model_validate`: structural validation, then the
`validate_lengths` after-validator (schemas.py:87-96). -/
def SegCraftResponse.modelValidate (j : Json) : Except String SegCraftResponse :=
  match SegCraftResponse.structValidate j with
  | .error e => .error e
  | .ok r =>
    match validate_lengths r.input_echo.variants_per_segment r.segments with
    | .error e => .error e
    | .ok _ => .ok r

/-! ## llm_client.py: extraction and the generation orchestrator

Failures of the Python functions (raised `LLMValidationError` /
`LLMClientError` / `json.JSONDecodeError` / pydantic `ValidationError`) are
the `Except.error` branch, carrying the raised message. -/

/-- The backtick character (for fence stripping). -/
def backtick : Char := Char.ofNat 96

/-- Error message for a response with no opening brace. -/
def noJsonMsg : String := "В ответе модели нет JSON-объекта."

/-- Error message for an unbalanced brace scan. -/
def incompleteJsonMsg : String := "Не удалось выделить полный JSON из ответа модели."

/-- The depth-counted brace scan of `_extract_first_json_object`
(llm_client.py:56-77): tracks string state and backslash escapes; returns
the absolute index at which the depth returns to zero. -/
def braceScan : List Char → Int → Bool → Bool → Nat → Option Nat
  | [], _, _, _, _ => none
  | c :: rest, depth, in_string, escaped, index =>
    if escaped then braceScan rest depth in_string false (index + 1)
    else if c = '\\' then braceScan rest depth in_string true (index + 1)
    else if c = '"' then braceScan rest depth (!in_string) false (index + 1)
    else if in_string then braceScan rest depth in_string false (index + 1)
    else if c = '{' then braceScan rest (depth + 1) in_string false (index + 1)
    else if c = '}' then
      if depth - 1 = 0 then some index
      else braceScan rest (depth - 1) in_string false (index + 1)
    else braceScan rest depth in_string false (index + 1)

/-- `_extract_first_json_object` from llm_client.py: strip, unfence, try a
whole-text parse, otherwise scan from the first `{`. -/
def extract_first_json_object (raw_text : String) : Except String String :=
  let text := pyStrip raw_text
  let text :=
    if pyStartsWith text "```" then
      pyStrip (pyReplaceOnce (pyStripChar backtick text) ("json" ++ "\n") "")
    else text
  match jsonLoads text with
  | some _ => .ok text
  | none =>
    match text.data.findIdx? (· == '{') with
    | none => .error noJsonMsg
    | some start =>
      match braceScan (text.data.drop start) 0 false false start with
      | some stop => .ok (String.mk ((text.data.drop start).take (stop - start + 1)))
      | none => .error incompleteJsonMsg

/-- Stand-in message for a `json.JSONDecodeError` raised by
`json.loads(json_text)` inside `parse_and_validate` (the exact Python text
is position-dependent and never inspected by the orchestrator). -/
def decodeErrorMsg : String := "Expecting value"

/-- `parse_and_validate` from llm_client.py. -/
def parse_and_validate (raw_text : String) : Except String SegCraftResponse :=
  match extract_first_json_object raw_text with
  | .error e => .error e
  | .ok json_text =>
    match jsonLoads json_text with
    | none => .error decodeErrorMsg
    | some payload => SegCraftResponse.modelValidate payload

/-- The canned sample documents on disk (`samples/sample_output_1.json` and
`samples/sample_output_2.json`), already parsed; `none` models a missing
file.  These are data files produced by sync_from_text.py, not source under
src/, so they are a parameter of the model. -/
structure MockSamples where
  sample1 : Option Json
  sample2 : Option Json

/-- The file chosen by `load_mock_output`: `sample_output_1.json` iff the
format id is `yadirect_text`, `sample_output_2.json` otherwise. -/
def chosenSample (samples : MockSamples) (format_id : String) : Option Json :=
  if format_id = "yadirect_text" then samples.sample1 else samples.sample2

/-- Error message for a missing mock file. -/
def mockMissingMsg : String :=
  "Mock файл не найден. Выполните tools/sync_from_text.py."

/-- `load_mock_output` from llm_client.py (file reading replaced by the
stored documents; a missing file raises `LLMClientError`). -/
def load_mock_output (samples : MockSamples) (format_id : String) :
    Except String SegCraftResponse :=
  match chosenSample samples format_id with
  | none => .error mockMissingMsg
  | some data => SegCraftResponse.modelValidate data

/-- Environment of one `run_generation` call: whether `get_client()` finds a
credential, the stored mock samples, and the generative model as a
deterministic oracle from prompt text to completion text. -/
structure GenEnv where
  hasApiKey : Bool
  samples : MockSamples
  modelReply : String → String

/-- `generate` from llm_client.py: one model call; an empty completion
raises `LLMClientError`. -/
def generateCall (env : GenEnv) (prompt_text : String) : Except String String :=
  let raw := env.modelReply prompt_text
  if raw = "" then .error "LLM вернул пустой ответ." else .ok raw

/-- The repair prompt built by `repair_json` (llm_client.py:122-126). -/
def repairPrompt (validation_error raw_text : String) : String :=
  "Исправь JSON. Верни ТОЛЬКО валидный JSON без markdown и пояснений.\n\n" ++
    "Ошибка валидации:\n" ++ validation_error ++ "\n\n" ++
    "Текущий ответ:\n" ++ raw_text

/-- `repair_json` from llm_client.py: one more model call at temperature 0;
the completion is stripped, and an empty one raises `LLMClientError`. -/
def repairCall (env : GenEnv) (validation_error raw_text : String) :
    Except String String :=
  let fixed := pyStrip (env.modelReply (repairPrompt validation_error raw_text))
  if fixed = "" then .error "Repair attempt вернул пустой ответ." else .ok fixed

/-- The terminal failure message after a failed repair round
(llm_client.py:173-176), wrapping the second-round cause. -/
def repairFailMsg (second_error : String) : String :=
  "Не удалось получить валидный JSON после repair attempt. " ++
    "Включите mock mode или используйте sample_output. " ++
    "Причина: " ++ second_error

/-- Outcome of one `run_generation` call: the returned triple (or raised
error) plus an instrumentation counter of model calls issued. -/
structure GenOutcome where
  result : Except String (SegCraftResponse × String × String)
  modelCalls : Nat

/-- `run_generation` from llm_client.py: mock path when forced or without a
credential; otherwise one live call, then at most one repair round. -/
def run_generation (env : GenEnv) (prompt_text format_id : String)
    (force_mock : Bool) : GenOutcome :=
  if force_mock || !env.hasApiKey then
    { result := (load_mock_output env.samples format_id).map (fun r => (r, "mock", ""))
      modelCalls := 0 }
  else
    match generateCall env prompt_text with
    | .error e => { result := .error e, modelCalls := 1 }
    | .ok raw_text =>
      match parse_and_validate raw_text with
      | .ok r => { result := .ok (r, "llm", raw_text), modelCalls := 1 }
      | .error first_error =>
        match repairCall env first_error raw_text with
        | .error e => { result := .error e, modelCalls := 2 }
        | .ok repaired_raw =>
          match parse_and_validate repaired_raw with
          | .ok validated => { result := .ok (validated, "llm", repaired_raw), modelCalls := 2 }
          | .error second_error =>
            { result := .error (repairFailMsg second_error), modelCalls := 2 }

/-! ## Lemmas: association lists (Python dict operations) -/

theorem objFind_objSet_self (o : List (String × Json)) (k : String) (v : Json) :
    objFind (objSet o k v) k = some v := by
  induction o with
  | nil => simp [objSet, objFind]
  | cons p rest ih =>
    obtain ⟨k2, w⟩ := p
    by_cases h : k2 = k
    · simp [objSet, objFind, h]
    · simp [objSet, objFind, h, ih]

theorem objFind_objSet_ne (o : List (String × Json)) (k k2 : String) (v : Json)
    (h : k ≠ k2) : objFind (objSet o k v) k2 = objFind o k2 := by
  induction o with
  | nil => simp [objSet, objFind, h]
  | cons p rest ih =>
    obtain ⟨k3, w⟩ := p
    by_cases h3 : k3 = k
    · subst h3
      simp [objSet, objFind, h]
    · simp [objSet, objFind, h3, ih]

theorem objSet_objFind_eq (o : List (String × Json)) (k : String) (v : Json)
    (h : objFind o k = some v) : objSet o k v = o := by
  induction o with
  | nil => simp [objFind] at h
  | cons p rest ih =>
    obtain ⟨k2, w⟩ := p
    by_cases h2 : k2 = k
    · simp [objFind, h2] at h
      simp [objSet, h2, h]
    · simp [objFind, h2] at h
      simp [objSet, h2, ih h]

theorem objSet_objSet (o : List (String × Json)) (k : String) (v w : Json) :
    objSet (objSet o k v) k w = objSet o k w := by
  induction o with
  | nil => simp [objSet]
  | cons p rest ih =>
    obtain ⟨k2, u⟩ := p
    by_cases h : k2 = k
    · simp [objSet, h]
    · simp [objSet, h, ih]

theorem objFind_append_single (o : List (String × Json)) (k k2 : String) (v : Json) :
    objFind (o ++ [(k2, v)]) k =
      match objFind o k with
      | some w => some w
      | none => if k2 = k then some v else none := by
  induction o with
  | nil => simp [objFind]
  | cons p rest ih =>
    obtain ⟨k3, w⟩ := p
    by_cases h : k3 = k
    · simp [objFind, h]
    · simp [objFind, h, ih]

theorem objFind_objSetdefault_isSome (o : List (String × Json)) (k : String) (v : Json) :
    (objFind (objSetdefault o k v) k).isSome = true := by
  unfold objSetdefault
  cases h : objFind o k with
  | some w => simp [h]
  | none => simp [objFind_append_single, h]

theorem objSetdefault_of_isSome (o : List (String × Json)) (k : String) (v : Json)
    (h : (objFind o k).isSome = true) : objSetdefault o k v = o := by
  unfold objSetdefault
  cases h2 : objFind o k with
  | some w => rfl
  | none => rw [h2] at h; simp at h

theorem objFind_objSetdefault_ne (o : List (String × Json)) (k k2 : String) (v : Json)
    (h : k ≠ k2) : objFind (objSetdefault o k v) k2 = objFind o k2 := by
  unfold objSetdefault
  cases h2 : objFind o k with
  | some w => rfl
  | none =>
    rw [objFind_append_single]
    cases h3 : objFind o k2 with
    | some w => rfl
    | none => simp [h]

/-! ## Lemmas: Python string helpers -/

theorem data_mk (l : List Char) : (String.mk l).data = l := rfl

theorem length_mk (l : List Char) : (String.mk l).length = l.length := rfl

theorem length_dropWhileList_le (p : Char → Bool) (l : List Char) :
    (l.dropWhile p).length ≤ l.length := by
  induction l with
  | nil => simp
  | cons c t ih =>
    by_cases h : p c
    · simp only [List.dropWhile_cons, h, if_true, List.length_cons]
      omega
    · simp [List.dropWhile_cons, h]

theorem pyRstrip_length_le (s : String) : (pyRstrip s).length ≤ s.length := by
  show ((s.data.reverse.dropWhile pyIsSpace).reverse).length ≤ s.length
  rw [List.length_reverse]
  calc (s.data.reverse.dropWhile pyIsSpace).length
      ≤ s.data.reverse.length := length_dropWhileList_le _ _
    _ = s.length := by rw [List.length_reverse]; rfl

theorem pySliceTo_length_le (s : String) (k : Int) (h : 0 ≤ k) :
    ((pySliceTo s k).length : Int) ≤ k := by
  unfold pySliceTo
  rw [if_neg (by omega)]
  rw [length_mk, List.length_take]
  have h2 : (min k.toNat s.data.length) ≤ k.toNat := Nat.min_le_left _ _
  omega

theorem pyRstrip_idem (s : String) : pyRstrip (pyRstrip s) = pyRstrip s := by
  unfold pyRstrip
  rw [data_mk, List.reverse_reverse, List.dropWhile_idempotent]

/-! ## Observers on payloads, and lemmas about the enforcement passes -/

/-- Read a `risk_flags` value as a list: an absent key reads as `[]`
(matching `setdefault`/`get` semantics), a non-list value as `none`
(Python would raise on it). -/
def riskOfOpt : Option Json → Option (List Json)
  | none => some []
  | some (Json.arr fs) => some fs
  | some _ => none

/-- `riskOfOpt` applied to a copy dict. -/
def riskFlagsOpt (o : List (String × Json)) : Option (List Json) :=
  riskOfOpt (objFind o "risk_flags")

/-- The copies list of one segment value (empty for ill-shaped segments). -/
def segCopies (seg : Json) : List Json :=
  match seg with
  | Json.obj s =>
    match objFind s "copies" with
    | some (Json.arr cs) => cs
    | _ => []
  | _ => []

/-- All copy values of a payload, in order. -/
def copiesOf (p : Json) : List Json :=
  match p with
  | Json.obj o =>
    match objFind o "segments" with
    | some (Json.arr segs) => segs.flatMap segCopies
    | _ => []
  | _ => []

/-- The headline string of the first copy of a payload (an observer used by
concrete counterexamples). -/
def firstHeadline (p : Json) : Option String :=
  match copiesOf p with
  | Json.obj c :: _ =>
    match objFind c "headline" with
    | some (Json.str h) => some h
    | _ => none
  | _ => none

theorem jsonGetStrD_objSet_self_str (o : List (String × Json)) (k : String) (s : String) :
    jsonGetStrD (objSet o k (Json.str s)) k = s := by
  unfold jsonGetStrD
  rw [objFind_objSet_self]

theorem jsonGetStrD_objSet_ne (o : List (String × Json)) (k k2 : String) (v : Json)
    (h : k ≠ k2) : jsonGetStrD (objSet o k v) k2 = jsonGetStrD o k2 := by
  unfold jsonGetStrD
  rw [objFind_objSet_ne _ _ _ _ h]

theorem jsonGetStrD_objSetdefault_ne (o : List (String × Json)) (k k2 : String) (v : Json)
    (h : k ≠ k2) : jsonGetStrD (objSetdefault o k v) k2 = jsonGetStrD o k2 := by
  unfold jsonGetStrD
  rw [objFind_objSetdefault_ne _ _ _ _ h]

theorem objFind_appendRisk_ne (o : List (String × Json)) (k : String)
    (h : k ≠ "risk_flags") : objFind (appendRisk o) k = objFind o k := by
  unfold appendRisk
  cases hx : objFind o "risk_flags" with
  | none =>
    rw [objFind_append_single]
    cases h3 : objFind o k with
    | some w => rfl
    | none => simp [Ne.symm h]
  | some w =>
    cases w with
    | arr fs => exact objFind_objSet_ne _ _ _ _ (Ne.symm h)
    | null => rfl
    | bool b => rfl
    | num n => rfl
    | str s => rfl
    | obj oo => rfl

theorem riskFlagsOpt_objSet_ne (o : List (String × Json)) (k : String) (v : Json)
    (h : k ≠ "risk_flags") : riskFlagsOpt (objSet o k v) = riskFlagsOpt o := by
  unfold riskFlagsOpt
  rw [objFind_objSet_ne _ _ _ _ h]

theorem jsonGetStrD_appendRisk_ne (o : List (String × Json)) (k : String)
    (h : k ≠ "risk_flags") : jsonGetStrD (appendRisk o) k = jsonGetStrD o k := by
  unfold jsonGetStrD
  rw [objFind_appendRisk_ne _ _ h]

theorem riskFlagsOpt_appendRisk (o : List (String × Json)) :
    riskFlagsOpt (appendRisk o) =
      (riskFlagsOpt o).map (fun fs => fs ++ [overflowFlag]) := by
  unfold riskFlagsOpt appendRisk
  cases hx : objFind o "risk_flags" with
  | none => simp [objFind_append_single, hx, riskOfOpt]
  | some w =>
    cases w with
    | arr fs => simp [objFind_objSet_self, riskOfOpt]
    | null => simp [hx, riskOfOpt]
    | bool b => simp [hx, riskOfOpt]
    | num n => simp [hx, riskOfOpt]
    | str s => simp [hx, riskOfOpt]
    | obj oo => simp [hx, riskOfOpt]

theorem riskFlagsOpt_objSetdefault_nil (o : List (String × Json)) :
    riskFlagsOpt (objSetdefault o "risk_flags" (Json.arr [])) = riskFlagsOpt o := by
  unfold riskFlagsOpt objSetdefault
  cases hx : objFind o "risk_flags" with
  | some w => simp [hx]
  | none => simp [objFind_append_single, hx, riskOfOpt]

theorem isSome_appendRisk (o : List (String × Json)) :
    (objFind (appendRisk o) "risk_flags").isSome = true := by
  unfold appendRisk
  cases hx : objFind o "risk_flags" with
  | none => simp [objFind_append_single, hx]
  | some w =>
    cases w with
    | arr fs => simp [objFind_objSet_self]
    | null => simp [hx]
    | bool b => simp [hx]
    | num n => simp [hx]
    | str s => simp [hx]
    | obj oo => simp [hx]

/-- Characterization of the truncation pass on one copy dict: headline and
body become their (possibly truncated) final values, `char_count` is
untouched, and the risk flag is appended exactly on overflow. -/
theorem limitCopy_obj_spec (lim : FmtLimits) (o : List (String × Json)) :
    ∃ o1, limitCopy lim (Json.obj o) = Json.obj o1
      ∧ jsonGetStrD o1 "headline" =
          (if lim.headline_max < ((jsonGetStrD o "headline").length : Int)
           then pyRstrip (pySliceTo (jsonGetStrD o "headline") lim.headline_max)
           else jsonGetStrD o "headline")
      ∧ jsonGetStrD o1 "body" =
          (if lim.body_max < ((jsonGetStrD o "body").length : Int)
           then pyRstrip (pySliceTo (jsonGetStrD o "body") lim.body_max)
           else jsonGetStrD o "body")
      ∧ objFind o1 "char_count" = objFind o "char_count"
      ∧ riskFlagsOpt o1 =
          (if lim.headline_max < ((jsonGetStrD o "headline").length : Int) ∨
              lim.body_max < ((jsonGetStrD o "body").length : Int)
           then (riskFlagsOpt o).map (fun fs => fs ++ [overflowFlag])
           else riskFlagsOpt o) := by
  have hb : ("headline" : String) ≠ "body" := by decide
  have hc : ("headline" : String) ≠ "char_count" := by decide
  have bc : ("body" : String) ≠ "char_count" := by decide
  have hr : ("headline" : String) ≠ "risk_flags" := by decide
  have br : ("body" : String) ≠ "risk_flags" := by decide
  by_cases hov : lim.headline_max < ((jsonGetStrD o "headline").length : Int) <;>
    by_cases bov : lim.body_max < ((jsonGetStrD o "body").length : Int)
  · refine ⟨appendRisk (objSet
        (objSet o "headline"
          (Json.str (pyRstrip (pySliceTo (jsonGetStrD o "headline") lim.headline_max))))
        "body" (Json.str (pyRstrip (pySliceTo (jsonGetStrD o "body") lim.body_max)))),
      ?_, ?_, ?_, ?_, ?_⟩
    · simp only [limitCopy, hov, bov, if_true, or_self, ite_true]
    · rw [jsonGetStrD_appendRisk_ne _ _ hr, jsonGetStrD_objSet_ne _ _ _ _ (Ne.symm hb),
        jsonGetStrD_objSet_self_str, if_pos hov]
    · rw [jsonGetStrD_appendRisk_ne _ _ br, jsonGetStrD_objSet_self_str, if_pos bov]
    · rw [objFind_appendRisk_ne _ _ (by decide), objFind_objSet_ne _ _ _ _ bc,
        objFind_objSet_ne _ _ _ _ hc]
    · rw [riskFlagsOpt_appendRisk, riskFlagsOpt_objSet_ne _ _ _ br,
        riskFlagsOpt_objSet_ne _ _ _ hr, if_pos (Or.inl hov)]
  · refine ⟨appendRisk (objSet o "headline"
        (Json.str (pyRstrip (pySliceTo (jsonGetStrD o "headline") lim.headline_max)))),
      ?_, ?_, ?_, ?_, ?_⟩
    · simp only [limitCopy, hov, bov, if_true, if_false, or_false, ite_true]
    · rw [jsonGetStrD_appendRisk_ne _ _ hr, jsonGetStrD_objSet_self_str, if_pos hov]
    · rw [jsonGetStrD_appendRisk_ne _ _ br, jsonGetStrD_objSet_ne _ _ _ _ hb, if_neg bov]
    · rw [objFind_appendRisk_ne _ _ (by decide), objFind_objSet_ne _ _ _ _ hc]
    · rw [riskFlagsOpt_appendRisk, riskFlagsOpt_objSet_ne _ _ _ hr, if_pos (Or.inl hov)]
  · refine ⟨appendRisk (objSet o "body"
        (Json.str (pyRstrip (pySliceTo (jsonGetStrD o "body") lim.body_max)))),
      ?_, ?_, ?_, ?_, ?_⟩
    · simp only [limitCopy, hov, bov, if_true, if_false, false_or, ite_true]
    · rw [jsonGetStrD_appendRisk_ne _ _ hr, jsonGetStrD_objSet_ne _ _ _ _ (Ne.symm hb),
        if_neg hov]
    · rw [jsonGetStrD_appendRisk_ne _ _ br, jsonGetStrD_objSet_self_str, if_pos bov]
    · rw [objFind_appendRisk_ne _ _ (by decide), objFind_objSet_ne _ _ _ _ bc]
    · rw [riskFlagsOpt_appendRisk, riskFlagsOpt_objSet_ne _ _ _ br, if_pos (Or.inr bov)]
  · refine ⟨o, ?_, ?_, ?_, ?_, ?_⟩
    · simp only [limitCopy, hov, bov, if_false, or_self, ite_false]
    · rw [if_neg hov]
    · rw [if_neg bov]
    · rfl
    · rw [if_neg (by tauto)]

/-- Characterization of `enforceCopy ∘ limitCopy lim` on one copy dict. -/
theorem enforceLimitCopy_spec (lim : FmtLimits) (o : List (String × Json)) :
    ∃ od, enforceCopy (limitCopy lim (Json.obj o)) = Json.obj od
      ∧ jsonGetStrD od "headline" =
          (if lim.headline_max < ((jsonGetStrD o "headline").length : Int)
           then pyRstrip (pySliceTo (jsonGetStrD o "headline") lim.headline_max)
           else jsonGetStrD o "headline")
      ∧ jsonGetStrD od "body" =
          (if lim.body_max < ((jsonGetStrD o "body").length : Int)
           then pyRstrip (pySliceTo (jsonGetStrD o "body") lim.body_max)
           else jsonGetStrD o "body")
      ∧ objFind od "char_count" =
          some (ccNum (jsonGetStrD od "headline").length (jsonGetStrD od "body").length)
      ∧ (objFind od "risk_flags").isSome = true
      ∧ riskFlagsOpt od =
          (if lim.headline_max < ((jsonGetStrD o "headline").length : Int) ∨
              lim.body_max < ((jsonGetStrD o "body").length : Int)
           then (riskFlagsOpt o).map (fun fs => fs ++ [overflowFlag])
           else riskFlagsOpt o) := by
  have hc : ("headline" : String) ≠ "char_count" := by decide
  have bc : ("body" : String) ≠ "char_count" := by decide
  have rc : ("risk_flags" : String) ≠ "char_count" := by decide
  have rh : ("risk_flags" : String) ≠ "headline" := by decide
  have rb : ("risk_flags" : String) ≠ "body" := by decide
  obtain ⟨o1, e1, eh, eb, ec, er⟩ := limitCopy_obj_spec lim o
  refine ⟨objSetdefault
      (objSet o1 "char_count" (ccNum (jsonGetStrD o1 "headline").length (jsonGetStrD o1 "body").length))
      "risk_flags" (Json.arr []), ?_, ?_, ?_, ?_, ?_, ?_⟩
  · rw [e1]; rfl
  · rw [jsonGetStrD_objSetdefault_ne _ _ _ _ rh,
      jsonGetStrD_objSet_ne _ _ _ _ (Ne.symm hc), eh]
  · rw [jsonGetStrD_objSetdefault_ne _ _ _ _ rb,
      jsonGetStrD_objSet_ne _ _ _ _ (Ne.symm bc), eb]
  · rw [objFind_objSetdefault_ne _ _ _ _ rc, objFind_objSet_self,
      jsonGetStrD_objSetdefault_ne _ _ _ _ rh,
      jsonGetStrD_objSet_ne _ _ _ _ (Ne.symm hc),
      jsonGetStrD_objSetdefault_ne _ _ _ _ rb,
      jsonGetStrD_objSet_ne _ _ _ _ (Ne.symm bc)]
  · exact objFind_objSetdefault_isSome _ _ _
  · rw [riskFlagsOpt_objSetdefault_nil, riskFlagsOpt_objSet_ne _ _ _ (Ne.symm rc), er]

/-- The truncation pass is a no-op on a copy whose fields are already within
the limits. -/
theorem limitCopy_noop (lim : FmtLimits) (od : List (String × Json))
    (h1 : ¬ lim.headline_max < ((jsonGetStrD od "headline").length : Int))
    (h2 : ¬ lim.body_max < ((jsonGetStrD od "body").length : Int)) :
    limitCopy lim (Json.obj od) = Json.obj od := by
  simp only [limitCopy, h1, h2, if_false, or_self, ite_false]

/-- The char-count pass is a no-op when `char_count` already holds the
recomputed value and `risk_flags` is present. -/
theorem enforceCopy_noop (od : List (String × Json))
    (h3 : objFind od "char_count" =
      some (ccNum (jsonGetStrD od "headline").length (jsonGetStrD od "body").length))
    (h4 : (objFind od "risk_flags").isSome = true) :
    enforceCopy (Json.obj od) = Json.obj od := by
  simp only [enforceCopy]
  rw [objSet_objFind_eq _ _ _ h3, objSetdefault_of_isSome _ _ _ h4]

/-- Truncated fields satisfy their limit. -/
theorem finalLength_le (lim_max : Int) (s : String) (hnn : 0 ≤ lim_max) :
    ¬ lim_max <
      (((if lim_max < ((s.length : Nat) : Int)
         then pyRstrip (pySliceTo s lim_max) else s).length : Nat) : Int) := by
  by_cases hov : lim_max < ((s.length : Nat) : Int)
  · rw [if_pos hov]
    have hle := pyRstrip_length_le (pySliceTo s lim_max)
    have hsl := pySliceTo_length_le s lim_max hnn
    omega
  · rw [if_neg hov]
    exact hov

/-- Per-copy idempotence of `enforceCopy ∘ limitCopy lim` under non-negative
maxima. -/
theorem copyPass_idem (lim : FmtLimits) (c : Json)
    (hh : 0 ≤ lim.headline_max) (hb : 0 ≤ lim.body_max) :
    enforceCopy (limitCopy lim (enforceCopy (limitCopy lim c))) =
      enforceCopy (limitCopy lim c) := by
  cases c with
  | obj o =>
    obtain ⟨od, e1, eh, eb, ec, ek, _⟩ := enforceLimitCopy_spec lim o
    rw [e1]
    have hno : ¬ lim.headline_max < ((jsonGetStrD od "headline").length : Int) := by
      rw [eh]; exact finalLength_le _ _ hh
    have bno : ¬ lim.body_max < ((jsonGetStrD od "body").length : Int) := by
      rw [eb]; exact finalLength_le _ _ hb
    rw [limitCopy_noop lim od hno bno, enforceCopy_noop od ec ek]
  | null => rfl
  | bool b => rfl
  | num n => rfl
  | str s => rfl
  | arr a => rfl

theorem mapSegCopies_comp (f g : Json → Json) (s : Json) :
    mapSegCopies g (mapSegCopies f s) = mapSegCopies (fun c => g (f c)) s := by
  cases s with
  | obj so =>
    cases hx : objFind so "copies" with
    | none => simp [mapSegCopies, hx]
    | some w =>
      cases w with
      | arr cs =>
        simp [mapSegCopies, hx, objFind_objSet_self, objSet_objSet, List.map_map,
          Function.comp_def]
      | null => simp [mapSegCopies, hx]
      | bool b => simp [mapSegCopies, hx]
      | num n => simp [mapSegCopies, hx]
      | str s2 => simp [mapSegCopies, hx]
      | obj oo => simp [mapSegCopies, hx]
  | null => rfl
  | bool b => rfl
  | num n => rfl
  | str s2 => rfl
  | arr a => rfl

theorem mapCopies_comp (p : Json) (f g : Json → Json) :
    mapCopies (mapCopies p f) g = mapCopies p (fun c => g (f c)) := by
  cases p with
  | obj o =>
    cases hx : objFind o "segments" with
    | none => simp [mapCopies, hx]
    | some w =>
      cases w with
      | arr segs =>
        simp only [mapCopies, hx, objFind_objSet_self, objSet_objSet, List.map_map,
          Function.comp_def]
        exact congrArg (fun l => Json.obj (objSet o "segments" (Json.arr l)))
          (List.map_congr_left (fun s _ => mapSegCopies_comp f g s))
      | null => simp [mapCopies, hx]
      | bool b => simp [mapCopies, hx]
      | num n => simp [mapCopies, hx]
      | str s2 => simp [mapCopies, hx]
      | obj oo => simp [mapCopies, hx]
  | null => rfl
  | bool b => rfl
  | num n => rfl
  | str s2 => rfl
  | arr a => rfl

theorem mapSegCopies_congr (f g : Json → Json) (h : ∀ c, f c = g c) (s : Json) :
    mapSegCopies f s = mapSegCopies g s := by
  cases s with
  | obj so =>
    cases hx : objFind so "copies" with
    | none => simp [mapSegCopies, hx]
    | some w =>
      cases w with
      | arr cs =>
        simp only [mapSegCopies, hx]
        exact congrArg (fun l => Json.obj (objSet so "copies" (Json.arr l)))
          (List.map_congr_left (fun c _ => h c))
      | null => simp [mapSegCopies, hx]
      | bool b => simp [mapSegCopies, hx]
      | num n => simp [mapSegCopies, hx]
      | str s2 => simp [mapSegCopies, hx]
      | obj oo => simp [mapSegCopies, hx]
  | null => rfl
  | bool b => rfl
  | num n => rfl
  | str s2 => rfl
  | arr a => rfl

theorem mapCopies_congr (p : Json) (f g : Json → Json) (h : ∀ c, f c = g c) :
    mapCopies p f = mapCopies p g := by
  cases p with
  | obj o =>
    cases hx : objFind o "segments" with
    | none => simp [mapCopies, hx]
    | some w =>
      cases w with
      | arr segs =>
        simp only [mapCopies, hx]
        exact congrArg (fun l => Json.obj (objSet o "segments" (Json.arr l)))
          (List.map_congr_left (fun s _ => mapSegCopies_congr f g h s))
      | null => simp [mapCopies, hx]
      | bool b => simp [mapCopies, hx]
      | num n => simp [mapCopies, hx]
      | str s2 => simp [mapCopies, hx]
      | obj oo => simp [mapCopies, hx]
  | null => rfl
  | bool b => rfl
  | num n => rfl
  | str s2 => rfl
  | arr a => rfl

theorem payloadFormatId_mapCopies (p : Json) (f : Json → Json) :
    payloadFormatId (mapCopies p f) = payloadFormatId p := by
  have hne : ("segments" : String) ≠ "input_echo" := by decide
  cases p with
  | obj o =>
    cases hx : objFind o "segments" with
    | none => simp [mapCopies, hx]
    | some w =>
      cases w with
      | arr segs =>
        simp only [mapCopies, hx, payloadFormatId]
        rw [objFind_objSet_ne _ _ _ _ hne]
      | null => simp [mapCopies, hx]
      | bool b => simp [mapCopies, hx]
      | num n => simp [mapCopies, hx]
      | str s2 => simp [mapCopies, hx]
      | obj oo => simp [mapCopies, hx]
  | null => rfl
  | bool b => rfl
  | num n => rfl
  | str s2 => rfl
  | arr a => rfl

theorem segCopies_mapSegCopies (f : Json → Json) (s : Json) :
    segCopies (mapSegCopies f s) = (segCopies s).map f := by
  cases s with
  | obj so =>
    cases hx : objFind so "copies" with
    | none => simp [segCopies, mapSegCopies, hx]
    | some w =>
      cases w with
      | arr cs => simp [segCopies, mapSegCopies, hx, objFind_objSet_self]
      | null => simp [segCopies, mapSegCopies, hx]
      | bool b => simp [segCopies, mapSegCopies, hx]
      | num n => simp [segCopies, mapSegCopies, hx]
      | str s2 => simp [segCopies, mapSegCopies, hx]
      | obj oo => simp [segCopies, mapSegCopies, hx]
  | null => rfl
  | bool b => rfl
  | num n => rfl
  | str s2 => rfl
  | arr a => rfl

theorem flatMap_segCopies_map (f : Json → Json) (segs : List Json) :
    (segs.map (mapSegCopies f)).flatMap segCopies = (segs.flatMap segCopies).map f := by
  induction segs with
  | nil => simp
  | cons s t ih => simp [segCopies_mapSegCopies, ih]

theorem copiesOf_mapCopies (p : Json) (f : Json → Json) :
    copiesOf (mapCopies p f) = (copiesOf p).map f := by
  cases p with
  | obj o =>
    cases hx : objFind o "segments" with
    | none => simp [copiesOf, mapCopies, hx]
    | some w =>
      cases w with
      | arr segs =>
        simp only [copiesOf, mapCopies, hx, objFind_objSet_self]
        exact flatMap_segCopies_map f segs
      | null => simp [copiesOf, mapCopies, hx]
      | bool b => simp [copiesOf, mapCopies, hx]
      | num n => simp [copiesOf, mapCopies, hx]
      | str s2 => simp [copiesOf, mapCopies, hx]
      | obj oo => simp [copiesOf, mapCopies, hx]
  | null => rfl
  | bool b => rfl
  | num n => rfl
  | str s2 => rfl
  | arr a => rfl

/-- The enforcer applied once, written as a single copy-wise map. -/
theorem ensure_eq_mapCopies (p : Json) (L : List (String × FmtLimits))
    (lim : FmtLimits) (hx : limitsFind L (payloadFormatId p) = some lim) :
    ensure_format_limits p L = mapCopies p (fun c => enforceCopy (limitCopy lim c)) := by
  unfold ensure_format_limits
  rw [hx]
  show mapCopies (mapCopies p (limitCopy lim)) enforceCopy = _
  rw [mapCopies_comp]

/-- What one enforcement pass guarantees about each copy, paired with the
corresponding input copy (the c7 property): an overflowing field ends up
equal to its sliced-and-rstripped form, hence within the limit and free of
trailing whitespace; a compliant field is untouched; a `format_overflow`
flag is appended exactly on overflow; and `char_count` ends up equal to the
lengths of the final texts. -/
def copyClaim (lim : FmtLimits) (c c2 : Json) : Prop :=
  match c with
  | Json.obj o =>
    ∃ o2, c2 = Json.obj o2
      ∧ (lim.headline_max < ((jsonGetStrD o "headline").length : Int) →
          jsonGetStrD o2 "headline" =
            pyRstrip (pySliceTo (jsonGetStrD o "headline") lim.headline_max)
          ∧ ((jsonGetStrD o2 "headline").length : Int) ≤ lim.headline_max
          ∧ pyRstrip (jsonGetStrD o2 "headline") = jsonGetStrD o2 "headline")
      ∧ (¬ lim.headline_max < ((jsonGetStrD o "headline").length : Int) →
          jsonGetStrD o2 "headline" = jsonGetStrD o "headline")
      ∧ (lim.body_max < ((jsonGetStrD o "body").length : Int) →
          jsonGetStrD o2 "body" =
            pyRstrip (pySliceTo (jsonGetStrD o "body") lim.body_max)
          ∧ ((jsonGetStrD o2 "body").length : Int) ≤ lim.body_max
          ∧ pyRstrip (jsonGetStrD o2 "body") = jsonGetStrD o2 "body")
      ∧ (¬ lim.body_max < ((jsonGetStrD o "body").length : Int) →
          jsonGetStrD o2 "body" = jsonGetStrD o "body")
      ∧ ((lim.headline_max < ((jsonGetStrD o "headline").length : Int) ∨
            lim.body_max < ((jsonGetStrD o "body").length : Int)) →
          ∀ fs, riskFlagsOpt o = some fs →
            riskFlagsOpt o2 = some (fs ++ [overflowFlag]))
      ∧ objFind o2 "char_count" =
          some (ccNum (jsonGetStrD o2 "headline").length (jsonGetStrD o2 "body").length)
  | _ => c2 = c

/-- One enforcement pass establishes `copyClaim` on every copy, provided the
maxima are non-negative. -/
theorem copyPass_claim (lim : FmtLimits) (c : Json)
    (hh : 0 ≤ lim.headline_max) (hb : 0 ≤ lim.body_max) :
    copyClaim lim c (enforceCopy (limitCopy lim c)) := by
  cases c with
  | obj o =>
    obtain ⟨od, e1, eh, eb, ec, _, er⟩ := enforceLimitCopy_spec lim o
    rw [e1]
    refine ⟨od, rfl, ?_, ?_, ?_, ?_, ?_, ec⟩
    · intro hov
      rw [eh, if_pos hov]
      refine ⟨rfl, ?_, pyRstrip_idem _⟩
      have h1 := pySliceTo_length_le (jsonGetStrD o "headline") lim.headline_max hh
      have h2 := pyRstrip_length_le (pySliceTo (jsonGetStrD o "headline") lim.headline_max)
      omega
    · intro hov
      rw [eh, if_neg hov]
    · intro bov
      rw [eb, if_pos bov]
      refine ⟨rfl, ?_, pyRstrip_idem _⟩
      have h1 := pySliceTo_length_le (jsonGetStrD o "body") lim.body_max hb
      have h2 := pyRstrip_length_le (pySliceTo (jsonGetStrD o "body") lim.body_max)
      omega
    · intro bov
      rw [eb, if_neg bov]
    · intro hov fs hfs
      rw [er, if_pos hov, hfs]
      rfl
  | null => rfl
  | bool b => rfl
  | num n => rfl
  | str s => rfl
  | arr a => rfl

/-- C6 (amended): the Format-Limit Enforcer is idempotent whenever the
active format's maxima are non-negative: applying it twice yields exactly
the payload of one application. -/
theorem ensure_format_limits_idem (p : Json) (L : List (String × FmtLimits))
    (hnn : ∀ lim, limitsFind L (payloadFormatId p) = some lim →
      0 ≤ lim.headline_max ∧ 0 ≤ lim.body_max) :
    ensure_format_limits (ensure_format_limits p L) L = ensure_format_limits p L := by
  cases hx : limitsFind L (payloadFormatId p) with
  | none =>
    have h1 : ensure_format_limits p L = p := by
      unfold ensure_format_limits; rw [hx]
    rw [h1]
    unfold ensure_format_limits; rw [hx]
  | some lim =>
    obtain ⟨h1, h2⟩ := hnn lim hx
    have e1 := ensure_eq_mapCopies p L lim hx
    have epf : limitsFind L (payloadFormatId (ensure_format_limits p L)) = some lim := by
      rw [e1, payloadFormatId_mapCopies]; exact hx
    calc ensure_format_limits (ensure_format_limits p L) L
        = mapCopies (ensure_format_limits p L)
            (fun c => enforceCopy (limitCopy lim c)) :=
          ensure_eq_mapCopies _ L lim epf
      _ = mapCopies p
            (fun c => enforceCopy (limitCopy lim (enforceCopy (limitCopy lim c)))) := by
          rw [e1, mapCopies_comp]
      _ = mapCopies p (fun c => enforceCopy (limitCopy lim c)) :=
          mapCopies_congr _ _ _ (fun c => copyPass_idem lim c h1 h2)
      _ = ensure_format_limits p L := e1.symm

/-- A payload whose active format has maxima `(-1, 0)` (legal, since the
parsed maxima are arbitrary Python ints): the headline `"abc"` is cut to
`"ab"` by one pass and to `"a"` by a second pass. -/
def pNeg : Json :=
  Json.obj
    [("input_echo", Json.obj [("format_id", Json.str "f")]),
     ("segments", Json.arr
       [Json.obj [("copies", Json.arr
         [Json.obj [("headline", Json.str "abc"), ("body", Json.str "")]])]])]

/-- The format-limits mapping with a negative headline maximum. -/
def LNeg : List (String × FmtLimits) :=
  [("f", { headline_max := -1, body_max := 0 })]

/-- C6 counterexample: with a negative maximum the enforcer is not
idempotent — the second application truncates the headline again. -/
theorem ensure_format_limits_not_idem :
    ensure_format_limits (ensure_format_limits pNeg LNeg) LNeg ≠
      ensure_format_limits pNeg LNeg := by
  intro h
  have h2 : (some "a" : Option String) = some "ab" := congrArg firstHeadline h
  exact absurd h2 (by decide)

/-- A well-formed payload and mapping (maxima `(12, 40)`), used as the
concrete instance for the enforcement theorems. -/
def pPos : Json :=
  Json.obj
    [("input_echo", Json.obj [("format_id", Json.str "fmt")]),
     ("segments", Json.arr
       [Json.obj [("copies", Json.arr
         [Json.obj
           [("headline", Json.str "hello world ab  "),
            ("body", Json.str "ok"),
            ("char_count", ccNum 5 5)]])]])]

/-- Mapping for `pPos`. -/
def LPos : List (String × FmtLimits) :=
  [("fmt", { headline_max := 12, body_max := 40 })]

/-- C6 witness: the idempotence theorem applied at the concrete instance. -/
theorem ensure_format_limits_idem_witness :
    ensure_format_limits (ensure_format_limits pPos LPos) LPos =
      ensure_format_limits pPos LPos :=
  ensure_format_limits_idem pPos LPos
    (by
      intro lim h
      have h2 : some ({ headline_max := 12, body_max := 40 } : FmtLimits) = some lim := h
      injection h2 with h3
      rw [← h3]
      exact ⟨by decide, by decide⟩)

/-- C7 (amended): an unknown format id leaves the payload unchanged; for a
known format with non-negative maxima, every copy satisfies `copyClaim`
against its enforced counterpart (truncation to the maximum with trailing
whitespace stripped, `format_overflow` flag appended on overflow, and
`char_count` synced to the final texts). -/
theorem ensure_format_limits_spec (p : Json) (L : List (String × FmtLimits)) :
    (limitsFind L (payloadFormatId p) = none → ensure_format_limits p L = p)
    ∧ (∀ lim, limitsFind L (payloadFormatId p) = some lim →
        0 ≤ lim.headline_max → 0 ≤ lim.body_max →
        List.Forall₂ (copyClaim lim) (copiesOf p)
          (copiesOf (ensure_format_limits p L))) := by
  constructor
  · intro h
    unfold ensure_format_limits
    rw [h]
  · intro lim hx hh hb
    rw [ensure_eq_mapCopies p L lim hx, copiesOf_mapCopies,
      List.forall₂_map_right_iff, List.forall₂_same]
    intro c _
    exact copyPass_claim lim c hh hb

/-- C7 counterexample: with the active maximum `-1`, the overflowing
headline `"abc"` is cut to `"ab"`, whose length 2 is *not* at most the
maximum — the claim's "truncated to at most the maximum" fails for
negative maxima. -/
theorem ensure_format_limits_overflow_counterexample :
    limitsFind LNeg (payloadFormatId pNeg) =
      some { headline_max := -1, body_max := 0 }
    ∧ firstHeadline pNeg = some "abc"
    ∧ ((-1 : Int) < (("abc" : String).length : Int))
    ∧ firstHeadline (ensure_format_limits pNeg LNeg) = some "ab"
    ∧ ¬ ((("ab" : String).length : Int) ≤ (-1 : Int)) :=
  ⟨rfl, rfl, by decide, rfl, by decide⟩

/-- C7 witness: both parts of the theorem applied at concrete instances. -/
theorem ensure_format_limits_spec_witness :
    ensure_format_limits pPos [] = pPos
    ∧ List.Forall₂ (copyClaim { headline_max := 12, body_max := 40 })
        (copiesOf pPos) (copiesOf (ensure_format_limits pPos LPos)) :=
  ⟨(ensure_format_limits_spec pPos []).1 rfl,
   (ensure_format_limits_spec pPos LPos).2 { headline_max := 12, body_max := 40 }
     rfl (by decide) (by decide)⟩

/-! ## The segment parser and trailing records (the c8 property) -/

theorem segStep_segments_of_ne_end (st : SegState) (l : String)
    (h : pyStrip l ≠ "END") : (segStep st l).segments = st.segments := by
  unfold segStep
  by_cases h1 : pyStrip l = ""
  · simp [h1]
  · by_cases h2 : pyStartsWith (pyStrip l) "#"
    · simp [h1, h2]
    · by_cases h3 : pyStrip l = "SEGMENT"
      · simp [h1, h2, h3, show pyStartsWith "SEGMENT" "#" = false from rfl]
      · by_cases h5 : st.in_segment
        · simp [h1, h2, h3, h, h5]
        · simp [h1, h2, h3, h, h5]

theorem foldl_segStep_segments_of_no_end (rs : List String) (st : SegState)
    (h : ∀ l ∈ rs, pyStrip l ≠ "END") :
    (rs.foldl segStep st).segments = st.segments := by
  induction rs generalizing st with
  | nil => rfl
  | cons l t ih =>
    rw [List.foldl_cons, ih _ (fun x hx => h x (List.mem_cons_of_mem _ hx))]
    exact segStep_segments_of_ne_end st l (h l (List.mem_cons_self _ _))

theorem segStep_end_closed (st : SegState) (h : st.in_segment = false) :
    (segStep st "END").segments = st.segments := by
  have e0 : pyStrip "END" = "END" := rfl
  have e1 : ("END" : String) ≠ "" := by decide
  have e2 : pyStartsWith "END" "#" = false := rfl
  have e3 : ("END" : String) ≠ "SEGMENT" := by decide
  simp [segStep, e0, e1, e2, e3, h]

/-- C8 (amended): `parse_segments` silently *drops* an unterminated trailing
record — everything after a final record-open line not followed by an `END`
contributes nothing to the result — while a stray `END` with no open record
is ignored. -/
theorem parse_segments_drops_trailing :
    (∀ ls rs, (∀ l ∈ rs, pyStrip l ≠ "END") →
      parse_segments_lines (ls ++ "SEGMENT" :: rs) = parse_segments_lines ls)
    ∧ (∀ ls, (ls.foldl segStep segInit).in_segment = false →
      parse_segments_lines (ls ++ ["END"]) = parse_segments_lines ls) := by
  constructor
  · intro ls rs h
    unfold parse_segments_lines
    rw [List.foldl_append, List.foldl_cons, foldl_segStep_segments_of_no_end rs _ h]
    exact segStep_segments_of_ne_end _ _ (by decide)
  · intro ls h
    unfold parse_segments_lines
    rw [List.foldl_append]
    simp only [List.foldl_cons, List.foldl_nil]
    exact segStep_end_closed _ h

/-- C8 counterexample: a block ending in an open `SEGMENT` record yields the
empty list — the trailing record is *not* emitted (adding the closing `END`
is what makes it appear). -/
theorem parse_segments_trailing_not_emitted :
    parse_segments "SEGMENT\nid=x\nname=Test" = []
    ∧ parse_segments "SEGMENT\nid=x\nname=Test\nEND" =
        [{ segment_id := "x", name := "Test", who := "", job_to_be_done := ""
           pains := [], triggers := [], taboos := [], tone_hint := ""
           cta_style := "", example_offer_adaptations := [] }] :=
  ⟨rfl, rfl⟩

/-- C8 witness: the amended theorem applied to a concrete block. -/
theorem parse_segments_drops_trailing_witness :
    parse_segments_lines (["SEGMENT", "id=a", "name=A", "END"] ++
        "SEGMENT" :: ["id=x", "name=Test"]) =
      parse_segments_lines ["SEGMENT", "id=a", "name=A", "END"]
    ∧ parse_segments_lines (["SEGMENT", "id=a", "name=A", "END"] ++ ["END"]) =
        parse_segments_lines ["SEGMENT", "id=a", "name=A", "END"] :=
  ⟨parse_segments_drops_trailing.1 ["SEGMENT", "id=a", "name=A", "END"]
      ["id=x", "name=Test"] (by decide),
   parse_segments_drops_trailing.2 ["SEGMENT", "id=a", "name=A", "END"] (by decide)⟩

/-! ## Format maxima: defaults and the int() failure (the c9 property) -/

/-- C9 (amended): an *absent* `headline_max`/`body_max` silently defaults to
0 in the parsed limits, but a *non-numeric* value raises an uncaught
`ValueError` from `int()` — the format parser fails on such input rather
than defaulting. -/
theorem format_maxima_defaults_or_raises :
    (∀ kv, kvFind kv "headline_max" = none → kvFind kv "body_max" = none →
      ∃ r, formatFromKV kv = .ok r ∧
        r.limits = { headline_max := 0, body_max := 0 })
    ∧ (∀ kv v, kvFind kv "headline_max" = some v → pyIntOfString v = none →
      ∃ e, formatFromKV kv = .error e)
    ∧ (∀ kv hv n v, kvFind kv "headline_max" = some hv → pyIntOfString hv = some n →
      kvFind kv "body_max" = some v → pyIntOfString v = none →
      ∃ e, formatFromKV kv = .error e) := by
  refine ⟨?_, ?_, ?_⟩
  · intro kv h1 h2
    unfold formatFromKV kvFindD
    rw [h1, h2]
    exact ⟨_, rfl, rfl⟩
  · intro kv v h1 hbad
    unfold formatFromKV kvFindD
    rw [h1, Option.getD_some, hbad]
    exact ⟨_, rfl⟩
  · intro kv hv n v ha hpa hb hpb
    unfold formatFromKV kvFindD
    rw [ha, hb, Option.getD_some, Option.getD_some, hpa, hpb]
    exact ⟨_, rfl⟩

/-- C9 counterexample: a record with `headline_max=abc` makes the whole
format parse fail with the `int()` ValueError — it does not default to 0. -/
theorem parse_formats_nonnumeric_fails :
    parse_formats "FORMAT\nid=f\nheadline_max=abc\nEND" =
      .error "invalid literal for int() with base 10: \x27abc\x27"
    ∧ (∀ r, parse_formats "FORMAT\nid=f\nheadline_max=abc\nEND" ≠ .ok r) :=
  ⟨rfl, fun r h => by rw [show parse_formats "FORMAT\nid=f\nheadline_max=abc\nEND" =
      .error "invalid literal for int() with base 10: \x27abc\x27" from rfl] at h; exact
        Except.noConfusion h⟩

/-- C9 witness: the amended theorem applied to concrete key-value blocks. -/
theorem format_maxima_defaults_or_raises_witness :
    (∃ r, formatFromKV (parse_key_values "id=f") = .ok r ∧
      r.limits = { headline_max := 0, body_max := 0 })
    ∧ (∃ e, formatFromKV (parse_key_values "headline_max=abc") = .error e)
    ∧ (∃ e, formatFromKV (parse_key_values "headline_max=3\nbody_max=zz") = .error e) :=
  ⟨format_maxima_defaults_or_raises.1 (parse_key_values "id=f") rfl rfl,
   format_maxima_defaults_or_raises.2.1 (parse_key_values "headline_max=abc") "abc" rfl rfl,
   format_maxima_defaults_or_raises.2.2 (parse_key_values "headline_max=3\nbody_max=zz")
     "3" 3 "zz" rfl rfl rfl rfl⟩

/-! ## Except plumbing and validator inversion lemmas -/

theorem ok_bind {α β : Type} (a : α) (f : α → Except String β) :
    (Except.ok a >>= f) = f a := rfl

theorem exceptBind_ok {α β : Type} (x : Except String α) (f : α → Except String β)
    (b : β) : (x >>= f) = .ok b ↔ ∃ a, x = .ok a ∧ f a = .ok b := by
  cases x with
  | error e =>
    rw [show ((Except.error e : Except String α) >>= f) = Except.error e from rfl]
    constructor
    · intro h
      exact Except.noConfusion h
    · rintro ⟨a, ha, _⟩
      exact Except.noConfusion ha
  | ok a =>
    rw [ok_bind]
    constructor
    · intro h
      exact ⟨a, rfl, h⟩
    · rintro ⟨a2, ha, hf⟩
      injection ha with h2
      rw [h2]
      exact hf

theorem mapExcept_ok_mem {α : Type} (f : Json → Except String α) (xs : List Json)
    (ys : List α) (h : mapExcept f xs = .ok ys) :
    ∀ y ∈ ys, ∃ x ∈ xs, f x = .ok y := by
  induction xs generalizing ys with
  | nil =>
    unfold mapExcept at h
    injection h with h
    subst h
    intro y hy
    simp at hy
  | cons x t ih =>
    unfold mapExcept at h
    rw [exceptBind_ok] at h
    obtain ⟨y0, hf, h⟩ := h
    rw [exceptBind_ok] at h
    obtain ⟨ys0, hmap, h⟩ := h
    injection h with h
    subst h
    intro y hy
    rcases List.mem_cons.mp hy with rfl | hmem
    · exact ⟨x, List.mem_cons_self _ _, hf⟩
    · obtain ⟨x2, hx2, hfx2⟩ := ih ys0 hmap y hmem
      exact ⟨x2, List.mem_cons_of_mem _ hx2, hfx2⟩

theorem vListField_ok_mem {α : Type} (o : List (String × Json)) (k : String)
    (f : Json → Except String α) (ys : List α) (h : vListField o k f = .ok ys) :
    ∀ y ∈ ys, ∃ x, f x = .ok y := by
  unfold vListField at h
  cases hx : objFind o k with
  | none => rw [hx] at h; exact Except.noConfusion h
  | some w =>
    rw [hx] at h
    cases w with
    | arr xs =>
      intro y hy
      obtain ⟨x, _, hfx⟩ := mapExcept_ok_mem f xs ys h y hy
      exact ⟨x, hfx⟩
    | null => exact Except.noConfusion h
    | bool b2 => exact Except.noConfusion h
    | num n => exact Except.noConfusion h
    | str s => exact Except.noConfusion h
    | obj oo => exact Except.noConfusion h

theorem vCharCountField_ok_isSome (o : List (String × Json)) (c0 : CharCount)
    (h : vCharCountField o = .ok c0) : (objFind o "char_count").isSome = true := by
  unfold vCharCountField at h
  cases hx : objFind o "char_count" with
  | none => rw [hx] at h; exact Except.noConfusion h
  | some w => simp [hx]

theorem charCount_ccNum_ok (a b : Int) (c : CharCount)
    (h : CharCount.modelValidate (ccNum a b) = .ok c) : 0 ≤ a ∧ 0 ≤ b := by
  have h2 : (if a < 0 then
        (Except.error "headline: Input should be greater than or equal to 0" :
          Except String CharCount)
      else if b < 0 then .error "body: Input should be greater than or equal to 0"
      else .ok { headline := a, body := b }) = .ok c := h
  by_cases ha : a < 0
  · rw [if_pos ha] at h2
    exact Except.noConfusion h2
  · rw [if_neg ha] at h2
    by_cases hb : b < 0
    · rw [if_pos hb] at h2
      exact Except.noConfusion h2
    · exact ⟨not_lt.mp ha, not_lt.mp hb⟩

/-- Inversion of `CopyVariant.model_validate` on success: the input is a
dict whose `char_count` validated, and the output's counters are the
recomputed lengths. -/
theorem copyVariant_ok_inv (cj : Json) (v : CopyVariant)
    (h : CopyVariant.modelValidate cj = .ok v) :
    ∃ o, cj = Json.obj o
      ∧ (∃ c0, vCharCountField o = .ok c0)
      ∧ v.char_count =
          { headline := (v.headline.length : Int), body := (v.body.length : Int) } := by
  cases cj with
  | obj o =>
    simp only [CopyVariant.modelValidate] at h
    rw [exceptBind_ok] at h
    obtain ⟨hl, h1, h⟩ := h
    rw [exceptBind_ok] at h
    obtain ⟨bd, h2, h⟩ := h
    rw [exceptBind_ok] at h
    obtain ⟨ct, h3, h⟩ := h
    rw [exceptBind_ok] at h
    obtain ⟨ra, h4, h⟩ := h
    rw [exceptBind_ok] at h
    obtain ⟨c0, h5, h⟩ := h
    rw [exceptBind_ok] at h
    obtain ⟨fs, h6, h⟩ := h
    injection h with h
    exact ⟨o, rfl, ⟨c0, h5⟩, by rw [← h]⟩
  | null => exact Except.noConfusion h
  | bool b => exact Except.noConfusion h
  | num n => exact Except.noConfusion h
  | str s => exact Except.noConfusion h
  | arr a => exact Except.noConfusion h

theorem copyVariant_ok_char (cj : Json) (v : CopyVariant)
    (h : CopyVariant.modelValidate cj = .ok v) :
    v.char_count =
      { headline := (v.headline.length : Int), body := (v.body.length : Int) } :=
  (copyVariant_ok_inv cj v h).choose_spec.2.2

/-- Inversion of `SegmentOutput.model_validate` on success: every copy in the
output came from a successful `CopyVariant.model_validate`. -/
theorem segmentOutput_ok_copies (x : Json) (s : SegmentOutput)
    (h : SegmentOutput.modelValidate x = .ok s) :
    ∀ c ∈ s.copies, ∃ cj, CopyVariant.modelValidate cj = .ok c := by
  cases x with
  | obj o =>
    simp only [SegmentOutput.modelValidate] at h
    rw [exceptBind_ok] at h
    obtain ⟨sid, h1, h⟩ := h
    rw [exceptBind_ok] at h
    obtain ⟨sn, h2, h⟩ := h
    rw [exceptBind_ok] at h
    obtain ⟨ci, h3, h⟩ := h
    rw [exceptBind_ok] at h
    obtain ⟨tr, h4, h⟩ := h
    rw [exceptBind_ok] at h
    obtain ⟨an, h5, h⟩ := h
    rw [exceptBind_ok] at h
    obtain ⟨cps, h6, h⟩ := h
    rw [exceptBind_ok] at h
    obtain ⟨dn, h7, h⟩ := h
    injection h with h
    intro c hc
    have hcps : c ∈ cps := by rw [← h] at hc; exact hc
    exact vListField_ok_mem o "copies" _ cps h6 c hcps
  | null => exact Except.noConfusion h
  | bool b => exact Except.noConfusion h
  | num n => exact Except.noConfusion h
  | str s2 => exact Except.noConfusion h
  | arr a => exact Except.noConfusion h

/-- Inversion of the structural response validator: every segment came from
a successful `SegmentOutput.model_validate`. -/
theorem structValidate_ok_segments (j : Json) (r : SegCraftResponse)
    (h : SegCraftResponse.structValidate j = .ok r) :
    ∀ s ∈ r.segments, ∃ x, SegmentOutput.modelValidate x = .ok s := by
  cases j with
  | obj o =>
    simp only [SegCraftResponse.structValidate] at h
    rw [exceptBind_ok] at h
    obtain ⟨ver, h1, h⟩ := h
    rw [exceptBind_ok] at h
    obtain ⟨u, h2, h⟩ := h
    rw [exceptBind_ok] at h
    obtain ⟨echo, h3, h⟩ := h
    rw [exceptBind_ok] at h
    obtain ⟨qs, h4, h⟩ := h
    rw [exceptBind_ok] at h
    obtain ⟨segs, h5, h⟩ := h
    rw [exceptBind_ok] at h
    obtain ⟨grs, h6, h⟩ := h
    rw [exceptBind_ok] at h
    obtain ⟨eh, h7, h⟩ := h
    rw [exceptBind_ok] at h
    obtain ⟨es, h8, h⟩ := h
    injection h with h
    intro s hs
    have hsegs : s ∈ segs := by rw [← h] at hs; exact hs
    exact vListField_ok_mem o "segments" _ segs h5 s hsegs
  | null => exact Except.noConfusion h
  | bool b => exact Except.noConfusion h
  | num n => exact Except.noConfusion h
  | str s2 => exact Except.noConfusion h
  | arr a => exact Except.noConfusion h

/-- Splitting `SegCraftResponse.model_validate` into its two stages. -/
theorem modelValidate_ok_parts (j : Json) (r : SegCraftResponse)
    (h : SegCraftResponse.modelValidate j = .ok r) :
    SegCraftResponse.structValidate j = .ok r ∧
      validate_lengths r.input_echo.variants_per_segment r.segments = .ok () := by
  unfold SegCraftResponse.modelValidate at h
  cases hs : SegCraftResponse.structValidate j with
  | error e => rw [hs] at h; exact Except.noConfusion h
  | ok r0 =>
    rw [hs] at h
    have h2 : (match validate_lengths r0.input_echo.variants_per_segment r0.segments with
        | Except.error e => (Except.error e : Except String SegCraftResponse)
        | Except.ok _ => Except.ok r0) = Except.ok r := h
    cases hv : validate_lengths r0.input_echo.variants_per_segment r0.segments with
    | error e => rw [hv] at h2; exact Except.noConfusion h2
    | ok u =>
      rw [hv] at h2
      injection h2 with h2
      subst h2
      cases u
      exact ⟨rfl, hv⟩

theorem validate_lengths_ok_all (e : Int) (l : List SegmentOutput)
    (h : validate_lengths e l = .ok ()) :
    ∀ s ∈ l, (s.copies.length : Int) = e := by
  induction l with
  | nil =>
    intro s hs
    simp at hs
  | cons a t ih =>
    unfold validate_lengths at h
    by_cases ha : (a.copies.length : Int) ≠ e
    · rw [if_pos ha] at h
      exact Except.noConfusion h
    · rw [if_neg ha] at h
      intro s hs
      rcases List.mem_cons.mp hs with rfl | hm
      · exact not_ne_iff.mp ha
      · exact ih h s hm

theorem validate_lengths_error_of_find (e : Int) (l : List SegmentOutput)
    (s : SegmentOutput)
    (h : l.find? (fun s2 => decide ((s2.copies.length : Int) ≠ e)) = some s) :
    validate_lengths e l = .error (mismatchMsg e s.segment_id) := by
  induction l with
  | nil => simp [List.find?] at h
  | cons a t ih =>
    by_cases ha : (a.copies.length : Int) ≠ e
    · rw [List.find?_cons_of_pos _ (by simpa using ha)] at h
      injection h with h
      subst h
      unfold validate_lengths
      rw [if_pos ha]
    · rw [List.find?_cons_of_neg _ (by simpa using ha)] at h
      unfold validate_lengths
      rw [if_neg ha]
      exact ih h

/-! ## Substring facts about the mismatch message -/

theorem listStartsWith_self_append (n q : List Char) :
    listStartsWith n (n ++ q) = true := by
  induction n with
  | nil => rfl
  | cons c t ih => simp [listStartsWith, ih]

theorem listHasInfix_of_startsWith (n hay : List Char)
    (h : listStartsWith n hay = true) : listHasInfix n hay = true := by
  cases hay with
  | nil => exact h
  | cons c t => simp [listHasInfix, h]

theorem listHasInfix_mid (p n q : List Char) :
    listHasInfix n (p ++ n ++ q) = true := by
  induction p with
  | nil => exact listHasInfix_of_startsWith n (n ++ q) (listStartsWith_self_append n q)
  | cons c t ih =>
    have ih2 : listHasInfix n (t ++ (n ++ q)) = true := by
      rw [← List.append_assoc]
      exact ih
    simp [listHasInfix, ih2]

theorem str_data_append (a b : String) : (a ++ b).data = a.data ++ b.data := rfl

theorem strContains_mid (p n q : String) : strContains (p ++ n ++ q) n = true := by
  unfold strContains
  rw [str_data_append, str_data_append]
  exact listHasInfix_mid p.data n.data q.data

theorem strAppend_assoc (a b c : String) : (a ++ b) ++ c = a ++ (b ++ c) :=
  congrArg String.mk (List.append_assoc a.data b.data c.data)

theorem strAppend_empty (a : String) : a ++ "" = a :=
  congrArg String.mk (List.append_nil a.data)

/-! ## C1: the variant-count invariant and its error message -/

/-- C1 (amended): a validated response satisfies
`len(copies) = variants_per_segment` for every segment; a structurally valid
payload with a mismatching segment is rejected with the `validate_lengths`
message, which names the offending segment identifier and the expected
count (`variants_per_segment`) — the segment's actual copy count is not part
of the message. -/
theorem copies_length_validation :
    (∀ j r, SegCraftResponse.modelValidate j = .ok r →
      ∀ s ∈ r.segments, (s.copies.length : Int) = r.input_echo.variants_per_segment)
    ∧ (∀ j r s, SegCraftResponse.structValidate j = .ok r →
        r.segments.find?
          (fun s2 =>
            decide ((s2.copies.length : Int) ≠ r.input_echo.variants_per_segment)) =
          some s →
        SegCraftResponse.modelValidate j =
          .error (mismatchMsg r.input_echo.variants_per_segment s.segment_id))
    ∧ (∀ e sid, strContains (mismatchMsg e sid) sid = true
        ∧ strContains (mismatchMsg e sid) (toString e) = true) := by
  refine ⟨?_, ?_, ?_⟩
  · intro j r h
    exact validate_lengths_ok_all _ _ (modelValidate_ok_parts j r h).2
  · intro j r s hs hfind
    unfold SegCraftResponse.modelValidate
    rw [hs]
    show (match validate_lengths r.input_echo.variants_per_segment r.segments with
      | Except.error e => (Except.error e : Except String SegCraftResponse)
      | Except.ok _ => Except.ok r) = _
    rw [validate_lengths_error_of_find _ _ _ hfind]
  · intro e sid
    constructor
    · have h := strContains_mid
        ("copies.length должна совпадать с variants_per_segment (" ++ toString e ++
          ") для segment_id=") sid ""
      rw [strAppend_empty] at h
      exact h
    · unfold mismatchMsg
      rw [strAppend_assoc]
      exact strContains_mid "copies.length должна совпадать с variants_per_segment ("
        (toString e) (") для segment_id=" ++ sid)

/-- A copy-variant dict whose supplied `char_count` (1, 1) is valid. -/
def cvObj : List (String × Json) :=
  [("headline", Json.str "x"), ("body", Json.str "y"), ("cta", Json.str "z"),
   ("rationale", Json.str "w"), ("char_count", ccNum 1 1)]

/-- `cvObj` as a document. -/
def cvJson : Json := Json.obj cvObj

/-- The validated form of `cvJson`. -/
def cvRec : CopyVariant :=
  { headline := "x", body := "y", cta := "z", rationale := "w"
    char_count := { headline := 1, body := 1 }, risk_flags := [] }

/-- A payload that is structurally valid but carries 2 copies for a
requested variant count of 1. -/
def c1Payload : Json :=
  Json.obj
    [("version", Json.str "1.0"),
     ("input_echo", Json.obj
       [("base_text", Json.str "b"), ("tone", Json.str "neutral"),
        ("format_id", Json.str "fmt"), ("variants_per_segment", Json.num 1)]),
     ("segments", Json.arr
       [Json.obj
         [("segment_id", Json.str "seg_a"), ("segment_name", Json.str "S"),
          ("core_insight", Json.str "c"), ("trigger", Json.str "t"),
          ("angle", Json.str "a"), ("copies", Json.arr [cvJson, cvJson]),
          ("differences_note", Json.str "d")]]),
     ("export_hints", Json.obj
       [("how_to_use", Json.arr []), ("ab_test_suggestions", Json.arr [])]),
     ("exec_summary", Json.obj
       [("for_marketer", Json.str "m"), ("for_non_tech_manager", Json.str "n")])]

/-- The offending segment of `c1Payload` after structural validation. -/
def c1Seg : SegmentOutput :=
  { segment_id := "seg_a", segment_name := "S", core_insight := "c"
    trigger := "t", angle := "a", copies := [cvRec, cvRec]
    differences_note := "d" }

/-- `c1Payload` after structural validation. -/
def c1Resp : SegCraftResponse :=
  { version := "1.0"
    input_echo :=
      { base_text := "b", tone := "neutral", format_id := "fmt"
        variants_per_segment := 1, constraints := [], assumptions := [] }
    questions := [], segments := [c1Seg], global_risks := []
    export_hints := { how_to_use := [], ab_test_suggestions := [] }
    exec_summary := { for_marketer := "m", for_non_tech_manager := "n" } }

/-- C1 counterexample: the payload with 2 copies against an expected 1 is
rejected, but the message contains only the expected count and the segment
id — the actual count 2 appears nowhere in it. -/
theorem mismatch_message_lacks_actual_count :
    SegCraftResponse.modelValidate c1Payload = .error (mismatchMsg 1 "seg_a")
    ∧ (copiesOf c1Payload).length = 2
    ∧ strContains (mismatchMsg 1 "seg_a") "2" = false :=
  ⟨rfl, rfl, rfl⟩

/-- A fully valid payload: one segment, one copy, with a deliberately wrong
supplied `char_count` of (99, 7) for the 9/5-character texts. -/
def okPayload : Json :=
  Json.obj
    [("version", Json.str "1.0"),
     ("input_echo", Json.obj
       [("base_text", Json.str "товар"), ("tone", Json.str "neutral"),
        ("format_id", Json.str "yadirect_text"), ("variants_per_segment", Json.num 1)]),
     ("segments", Json.arr
       [Json.obj
         [("segment_id", Json.str "s1"), ("segment_name", Json.str "Seg"),
          ("core_insight", Json.str "ci"), ("trigger", Json.str "tr"),
          ("angle", Json.str "an"),
          ("copies", Json.arr
            [Json.obj
              [("headline", Json.str "Заголовок"), ("body", Json.str "Текст"),
               ("cta", Json.str "Купить"), ("rationale", Json.str "r"),
               ("char_count", ccNum 99 7)]]),
          ("differences_note", Json.str "d")]]),
     ("export_hints", Json.obj
       [("how_to_use", Json.arr [Json.str "u1"]), ("ab_test_suggestions", Json.arr [])]),
     ("exec_summary", Json.obj
       [("for_marketer", Json.str "m"), ("for_non_tech_manager", Json.str "n")])]

/-- The validated form of `okPayload`: note `char_count` is the recomputed
(9, 5), not the supplied (99, 7). -/
def okResponse : SegCraftResponse :=
  { version := "1.0"
    input_echo :=
      { base_text := "товар", tone := "neutral", format_id := "yadirect_text"
        variants_per_segment := 1, constraints := [], assumptions := [] }
    questions := []
    segments :=
      [{ segment_id := "s1", segment_name := "Seg", core_insight := "ci"
         trigger := "tr", angle := "an"
         copies :=
           [{ headline := "Заголовок", body := "Текст", cta := "Купить"
              rationale := "r", char_count := { headline := 9, body := 5 }
              risk_flags := [] }]
         differences_note := "d" }]
    global_risks := []
    export_hints := { how_to_use := ["u1"], ab_test_suggestions := [] }
    exec_summary := { for_marketer := "m", for_non_tech_manager := "n" } }

/-- C1 witness: all three parts of the theorem at concrete instances. -/
theorem copies_length_validation_witness :
    (∀ s ∈ okResponse.segments,
      (s.copies.length : Int) = okResponse.input_echo.variants_per_segment)
    ∧ SegCraftResponse.modelValidate c1Payload = .error (mismatchMsg 1 "seg_a")
    ∧ (strContains (mismatchMsg 1 "seg_a") "seg_a" = true
        ∧ strContains (mismatchMsg 1 "seg_a") (toString (1 : Int)) = true) :=
  ⟨copies_length_validation.1 okPayload okResponse rfl,
   copies_length_validation.2.1 c1Payload c1Resp c1Seg rfl rfl,
   copies_length_validation.2.2 1 "seg_a"⟩

/-! ## C2: char_count is recomputed, never trusted -/

theorem vStrField_setcc_headline (o : List (String × Json)) (cc : Json) :
    vStrField (objSet o "char_count" cc) "headline" = vStrField o "headline" := by
  unfold vStrField
  rw [objFind_objSet_ne _ _ _ _ (by decide)]

theorem vStrField_setcc_body (o : List (String × Json)) (cc : Json) :
    vStrField (objSet o "char_count" cc) "body" = vStrField o "body" := by
  unfold vStrField
  rw [objFind_objSet_ne _ _ _ _ (by decide)]

theorem vStrField_setcc_cta (o : List (String × Json)) (cc : Json) :
    vStrField (objSet o "char_count" cc) "cta" = vStrField o "cta" := by
  unfold vStrField
  rw [objFind_objSet_ne _ _ _ _ (by decide)]

theorem vStrField_setcc_rationale (o : List (String × Json)) (cc : Json) :
    vStrField (objSet o "char_count" cc) "rationale" = vStrField o "rationale" := by
  unfold vStrField
  rw [objFind_objSet_ne _ _ _ _ (by decide)]

theorem vListFieldD_setcc_risk (o : List (String × Json)) (cc : Json) :
    vListFieldD (objSet o "char_count" cc) "risk_flags" RiskFlag.modelValidate =
      vListFieldD o "risk_flags" RiskFlag.modelValidate := by
  unfold vListFieldD
  rw [objFind_objSet_ne _ _ _ _ (by decide)]

theorem vCharCountField_setcc (o : List (String × Json)) (cc : Json) :
    vCharCountField (objSet o "char_count" cc) = CharCount.modelValidate cc := by
  unfold vCharCountField
  rw [objFind_objSet_self]

/-- C2: for every copy variant of an accepted response, `char_count` equals
the literal lengths of the current headline/body; and the supplied
`char_count` value is immaterial — swapping one valid counter object for
another changes nothing in the validated result. -/
theorem char_count_recomputed :
    (∀ j r, SegCraftResponse.modelValidate j = .ok r →
      ∀ s ∈ r.segments, ∀ c ∈ s.copies,
        c.char_count =
          { headline := (c.headline.length : Int), body := (c.body.length : Int) })
    ∧ (∀ o cc1 cc2, (∃ x, CharCount.modelValidate cc1 = .ok x) →
        (∃ x, CharCount.modelValidate cc2 = .ok x) →
        CopyVariant.modelValidate (Json.obj (objSet o "char_count" cc1)) =
          CopyVariant.modelValidate (Json.obj (objSet o "char_count" cc2))) := by
  constructor
  · intro j r h s hs c hc
    obtain ⟨hstruct, _⟩ := modelValidate_ok_parts j r h
    obtain ⟨x, hx⟩ := structValidate_ok_segments j r hstruct s hs
    obtain ⟨cj, hcj⟩ := segmentOutput_ok_copies x s hx c hc
    exact copyVariant_ok_char cj c hcj
  · rintro o cc1 cc2 ⟨c1, hc1⟩ ⟨c2, hc2⟩
    simp only [CopyVariant.modelValidate, vStrField_setcc_headline, vStrField_setcc_body,
      vStrField_setcc_cta, vStrField_setcc_rationale, vListFieldD_setcc_risk,
      vCharCountField_setcc, hc1, hc2, ok_bind]

/-- The copy dict of `okPayload`, without its `char_count` binding. -/
def okCopyBase : List (String × Json) :=
  [("headline", Json.str "Заголовок"), ("body", Json.str "Текст"),
   ("cta", Json.str "Купить"), ("rationale", Json.str "r")]

/-- C2 witness: the theorem at `okPayload` (whose fabricated (99, 7) counters
come out as the recomputed (9, 5)), and the counter-independence at a
concrete copy dict. -/
theorem char_count_recomputed_witness :
    (∀ s ∈ okResponse.segments, ∀ c ∈ s.copies,
      c.char_count =
        { headline := (c.headline.length : Int), body := (c.body.length : Int) })
    ∧ CopyVariant.modelValidate
        (Json.obj (objSet okCopyBase "char_count" (ccNum 99 7))) =
      CopyVariant.modelValidate
        (Json.obj (objSet okCopyBase "char_count" (ccNum 0 0))) :=
  ⟨char_count_recomputed.1 okPayload okResponse rfl,
   char_count_recomputed.2 okCopyBase (ccNum 99 7) (ccNum 0 0)
     ⟨{ headline := 99, body := 7 }, rfl⟩ ⟨{ headline := 0, body := 0 }, rfl⟩⟩

/-! ## C10: char_count is required and checked, then discarded -/

/-- C10: schema validation requires `char_count` to be present with
non-negative entries — a missing `char_count` or a negative counter is
rejected — yet on success the supplied value is discarded in favour of the
recomputed lengths; validation never fills in a missing `char_count`. -/
theorem char_count_required :
    (∀ o, objFind o "char_count" = none →
      ∃ e, CopyVariant.modelValidate (Json.obj o) = .error e)
    ∧ (∀ o a b, objFind o "char_count" = some (ccNum a b) → a < 0 ∨ b < 0 →
      ∃ e, CopyVariant.modelValidate (Json.obj o) = .error e)
    ∧ (∀ o v, CopyVariant.modelValidate (Json.obj o) = .ok v →
      (objFind o "char_count").isSome = true ∧
        v.char_count =
          { headline := (v.headline.length : Int), body := (v.body.length : Int) }) := by
  refine ⟨?_, ?_, ?_⟩
  · intro o hnone
    cases hres : CopyVariant.modelValidate (Json.obj o) with
    | error e => exact ⟨e, rfl⟩
    | ok v =>
      obtain ⟨o2, heq, ⟨c0, hcc⟩, _⟩ := copyVariant_ok_inv _ v hres
      injection heq with heq
      subst heq
      have hs := vCharCountField_ok_isSome o c0 hcc
      rw [hnone] at hs
      exact absurd hs (by simp)
  · intro o a b hsome hneg
    cases hres : CopyVariant.modelValidate (Json.obj o) with
    | error e => exact ⟨e, rfl⟩
    | ok v =>
      obtain ⟨o2, heq, ⟨c0, hcc⟩, _⟩ := copyVariant_ok_inv _ v hres
      injection heq with heq
      subst heq
      unfold vCharCountField at hcc
      rw [hsome] at hcc
      obtain ⟨ha, hb⟩ := charCount_ccNum_ok a b c0 hcc
      rcases hneg with hn | hn
      · omega
      · omega
  · intro o v h
    obtain ⟨o2, heq, ⟨c0, hcc⟩, hch⟩ := copyVariant_ok_inv _ v h
    injection heq with heq
    subst heq
    exact ⟨vCharCountField_ok_isSome o c0 hcc, hch⟩

/-- C10 witness: the three parts of the theorem at concrete copy dicts. -/
theorem char_count_required_witness :
    (∃ e, CopyVariant.modelValidate (Json.obj [("headline", Json.str "x")]) = .error e)
    ∧ (∃ e, CopyVariant.modelValidate
        (Json.obj (okCopyBase ++ [("char_count", ccNum (-1) 0)])) = .error e)
    ∧ ((objFind cvObj "char_count").isSome = true
        ∧ cvRec.char_count =
            { headline := (cvRec.headline.length : Int)
              body := (cvRec.body.length : Int) }) :=
  ⟨char_count_required.1 [("headline", Json.str "x")] rfl,
   char_count_required.2.1 (okCopyBase ++ [("char_count", ccNum (-1) 0)]) (-1) 0
     rfl (Or.inl (by decide)),
   char_count_required.2.2 cvObj cvRec rfl⟩

/-! ## C5: the extractor's brace scan versus quoted braces -/

/-- C5: on `prefix text {"a": {"b": "}"}} trailing` the extractor returns
exactly `{"a": {"b": "}"}}` — the closing brace inside the string literal is
non-structural; and a backslash-escaped quote does not toggle the in-string
state (second conjunct). -/
theorem extractor_brace_in_string :
    extract_first_json_object "prefix text \x7b\"a\": \x7b\"b\": \"\x7d\"\x7d\x7d trailing" =
      .ok "\x7b\"a\": \x7b\"b\": \"\x7d\"\x7d\x7d"
    ∧ extract_first_json_object "x \x7b\"a\": \"\\\"\x7d\"\x7d" =
        .ok "\x7b\"a\": \"\\\"\x7d\"\x7d" :=
  ⟨rfl, rfl⟩

/-! ## C4: the mock path -/

/-- C4: with mock forced or no credential, `run_generation` makes zero model
calls, returns the validated stored sample selected by format id (the first
sample exactly for `yadirect_text`, the second for every other id), and any
successful result is tagged `"mock"` with empty raw text. -/
theorem run_generation_mock_path (env : GenEnv) (prompt_text format_id : String)
    (force_mock : Bool) (h : force_mock = true ∨ env.hasApiKey = false) :
    run_generation env prompt_text format_id force_mock =
      { result := (load_mock_output env.samples format_id).map (fun r => (r, "mock", ""))
        modelCalls := 0 }
    ∧ (format_id = "yadirect_text" →
        chosenSample env.samples format_id = env.samples.sample1)
    ∧ (format_id ≠ "yadirect_text" →
        chosenSample env.samples format_id = env.samples.sample2)
    ∧ (∀ r mode raw,
        (run_generation env prompt_text format_id force_mock).result =
          .ok (r, mode, raw) → mode = "mock" ∧ raw = "") := by
  have hc : (force_mock || !env.hasApiKey) = true := by
    rcases h with h | h
    · simp [h]
    · simp [h]
  refine ⟨?_, ?_, ?_, ?_⟩
  · unfold run_generation
    rw [if_pos hc]
  · intro hf
    unfold chosenSample
    rw [if_pos hf]
  · intro hf
    unfold chosenSample
    rw [if_neg hf]
  · intro r mode raw hres
    unfold run_generation at hres
    rw [if_pos hc] at hres
    cases hm : load_mock_output env.samples format_id with
    | error e =>
      rw [hm] at hres
      exact Except.noConfusion hres
    | ok resp =>
      rw [hm] at hres
      injection hres with h2
      injection h2 with ha hb
      injection hb with hb1 hb2
      exact ⟨hb1.symm, hb2.symm⟩

/-- A mock-mode environment: no credential, and only the second sample file
present (holding `okPayload`). -/
def mockEnv : GenEnv :=
  { hasApiKey := false
    samples := { sample1 := none, sample2 := some okPayload }
    modelReply := fun _ => "" }

/-- C4 witness: the theorem at `mockEnv` and a non-`yadirect_text` id. -/
theorem run_generation_mock_path_witness :
    run_generation mockEnv "p" "other" false =
      { result := (load_mock_output mockEnv.samples "other").map (fun r => (r, "mock", ""))
        modelCalls := 0 }
    ∧ ("other" = "yadirect_text" →
        chosenSample mockEnv.samples "other" = mockEnv.samples.sample1)
    ∧ (("other" : String) ≠ "yadirect_text" →
        chosenSample mockEnv.samples "other" = mockEnv.samples.sample2)
    ∧ (∀ r mode raw,
        (run_generation mockEnv "p" "other" false).result = .ok (r, mode, raw) →
          mode = "mock" ∧ raw = "") :=
  run_generation_mock_path mockEnv "p" "other" false (Or.inr rfl)

/-! ## C3: the one-repair-round bound -/

/-- C3: in a live run where the first response fails extraction/validation
and the repair response fails again, the orchestrator terminates with the
single failure message wrapping the second round's cause, after exactly two
model calls; moreover no run ever makes more than two model calls. -/
theorem run_generation_repair_bounded (env : GenEnv) (prompt_text format_id : String)
    (raw fixed e1 e2 : String)
    (hkey : env.hasApiKey = true)
    (hgen : generateCall env prompt_text = .ok raw)
    (h1 : parse_and_validate raw = .error e1)
    (hrep : repairCall env e1 raw = .ok fixed)
    (h2 : parse_and_validate fixed = .error e2) :
    run_generation env prompt_text format_id false =
      { result := .error (repairFailMsg e2), modelCalls := 2 }
    ∧ strContains (repairFailMsg e2) e2 = true
    ∧ (∀ (env2 : GenEnv) (p2 f2 : String) (fm : Bool),
        (run_generation env2 p2 f2 fm).modelCalls ≤ 2) := by
  refine ⟨?_, ?_, ?_⟩
  · simp only [run_generation, hkey, Bool.not_true, Bool.or_false, Bool.false_or,
      hgen, h1, hrep, h2]
    simp
  · have h := strContains_mid
      ("Не удалось получить валидный JSON после repair attempt. " ++
        "Включите mock mode или используйте sample_output. " ++ "Причина: ") e2 ""
    rw [strAppend_empty] at h
    exact h
  · intro env2 p2 f2 fm
    unfold run_generation
    split
    · simp
    · split
      · simp
      · split
        · simp
        · split
          · simp
          · split
            · simp
            · simp

/-- A live environment whose model always answers prose with no JSON. -/
def liveEnv : GenEnv :=
  { hasApiKey := true
    samples := { sample1 := none, sample2 := none }
    modelReply := fun _ => "no json here" }

/-- C3 witness: the theorem at `liveEnv`, whose two rounds both fail with
the "no JSON object" extraction error. -/
theorem run_generation_repair_bounded_witness :
    run_generation liveEnv "p" "fmt" false =
      { result := .error (repairFailMsg noJsonMsg), modelCalls := 2 }
    ∧ strContains (repairFailMsg noJsonMsg) noJsonMsg = true
    ∧ (∀ (env2 : GenEnv) (p2 f2 : String) (fm : Bool),
        (run_generation env2 p2 f2 fm).modelCalls ≤ 2) :=
  run_generation_repair_bounded liveEnv "p" "fmt" "no json here" "no json here"
    noJsonMsg noJsonMsg rfl rfl rfl rfl rfl

end SegCraft
